import Mathlib

/-!
Verification development for the KuCoin paper-trading engine.

The TypeScript sources are embedded shallowly: JavaScript numbers are
modelled as exact rationals (`ℚ`), timestamps as integers (`ℤ`),
`undefined`-able fields as `Option`, and stateful classes as explicit
state-passing functions.  `Number.prototype.toFixed` rounding is modelled
by `roundTo` (round to nearest, ties towards +infinity, per the
ECMAScript specification of `toFixed`).  JavaScript truthiness of numbers
(`x || d` yields `d` for `0`/`undefined`) is modelled by `jsOrQ`, and for
strings by `jsOrStr`.
-/

/-- Source `clamp` helper (several modules define the identical function):
`Math.max(min, Math.min(max, value))`. -/
def clamp (value minV maxV : ℚ) : ℚ := max minV (min maxV value)

/-- Models `Number(value.toFixed(decimals))`: round to the nearest multiple of
`10^-decimals`, ties towards plus infinity (ECMAScript `toFixed` picks the
larger candidate integer on a tie). -/
def roundTo (decimals : ℕ) (value : ℚ) : ℚ :=
  (⌊value * (10 : ℚ) ^ decimals + 1/2⌋ : ℚ) / (10 : ℚ) ^ decimals

/-- JavaScript `x || d` for an optional number: `undefined` and `0` are falsy. -/
def jsOrQ (x : Option ℚ) (d : ℚ) : ℚ :=
  match x with
  | none => d
  | some v => if v = 0 then d else v

/-- JavaScript `x || d` for an optional string: `undefined` and `""` are falsy. -/
def jsOrStr (x : Option String) (d : String) : String :=
  match x with
  | none => d
  | some s => if s = "" then d else s

/-- JavaScript `x ?? d` (nullish coalescing) for an optional number. -/
def jsNullish (x : Option ℚ) (d : ℚ) : ℚ := x.getD d

section DecimalDigits

/-!
Decimal rendering and parsing of natural numbers, used to model the version
strings `v<n>` of `src/services/engine/strategyState.ts` (the source renders
with a template literal and parses with `Number` after stripping a leading
`v`; we model the decimal-digit fragment of `Number`, which covers every
version string the engine itself produces).
-/

/-- The decimal digit character of a digit value below ten. -/
def digitChar : ℕ → Char
  | 0 => '0'
  | 1 => '1'
  | 2 => '2'
  | 3 => '3'
  | 4 => '4'
  | 5 => '5'
  | 6 => '6'
  | 7 => '7'
  | 8 => '8'
  | 9 => '9'
  | _ => '?'

/-- The value of a decimal digit character, `none` on any other character. -/
def digitVal (c : Char) : Option ℕ :=
  if c = '0' then some 0
  else if c = '1' then some 1
  else if c = '2' then some 2
  else if c = '3' then some 3
  else if c = '4' then some 4
  else if c = '5' then some 5
  else if c = '6' then some 6
  else if c = '7' then some 7
  else if c = '8' then some 8
  else if c = '9' then some 9
  else none

/-- Most-significant-first decimal digits of `n`, with `fuel` bounding the
recursion depth (`n ≤ fuel` suffices). -/
def natDigitsAux : ℕ → ℕ → List ℕ
  | 0, _ => []
  | fuel + 1, n => if n = 0 then [] else natDigitsAux fuel (n / 10) ++ [n % 10]

/-- Most-significant-first decimal digits of `n` (so `natDigits 0 = [0]`). -/
def natDigits (n : ℕ) : List ℕ :=
  if n = 0 then [0] else natDigitsAux n n

/-- Accumulating decimal parser over characters; fails on a non-digit. -/
def parseDigitsAux (acc : ℕ) : List Char → Option ℕ
  | [] => some acc
  | c :: rest =>
      match digitVal c with
      | none => none
      | some d => parseDigitsAux (acc * 10 + d) rest

/-- Parses a non-empty all-digit character list as a natural number. -/
def parseDigits : List Char → Option ℕ
  | [] => none
  | cs => parseDigitsAux 0 cs

theorem digitVal_digitChar (d : ℕ) (h : d < 10) : digitVal (digitChar d) = some d := by
  interval_cases d <;> rfl

theorem natDigitsAux_lt_ten (fuel n : ℕ) : ∀ d ∈ natDigitsAux fuel n, d < 10 := by
  induction fuel generalizing n with
  | zero => intro d hd; simp [natDigitsAux] at hd
  | succ fuel ih =>
    intro d hd
    unfold natDigitsAux at hd
    by_cases hn : n = 0
    · simp [hn] at hd
    · simp only [hn, if_false, List.mem_append, List.mem_singleton] at hd
      rcases hd with hd | hd
      · exact ih _ d hd
      · subst hd; exact Nat.mod_lt n (by norm_num)

theorem parseDigitsAux_map_digitChar (ds : List ℕ) (hds : ∀ d ∈ ds, d < 10) :
    ∀ acc : ℕ, parseDigitsAux acc (ds.map digitChar) =
      some (ds.foldl (fun a d => a * 10 + d) acc) := by
  induction ds with
  | nil => intro acc; rfl
  | cons d rest ih =>
    intro acc
    have hd : d < 10 := hds d (List.mem_cons_self d rest)
    have hrest : ∀ x ∈ rest, x < 10 := fun x hx => hds x (List.mem_cons_of_mem d hx)
    simp only [List.map_cons, parseDigitsAux, digitVal_digitChar d hd, List.foldl_cons]
    exact ih hrest (acc * 10 + d)

theorem natDigitsAux_foldl (fuel : ℕ) :
    ∀ n acc : ℕ, n ≤ fuel →
      (natDigitsAux fuel n).foldl (fun a d => a * 10 + d) acc =
        acc * 10 ^ (natDigitsAux fuel n).length + n := by
  induction fuel with
  | zero =>
    intro n acc hn
    interval_cases n
    simp [natDigitsAux]
  | succ fuel ih =>
    intro n acc hn
    by_cases h0 : n = 0
    · subst h0; simp [natDigitsAux]
    · have hdiv : n / 10 ≤ fuel := by
        have : n / 10 < n := Nat.div_lt_self (Nat.pos_of_ne_zero h0) (by norm_num)
        omega
      simp only [natDigitsAux, h0, if_false, List.foldl_append, List.foldl_cons,
        List.foldl_nil, List.length_append, List.length_singleton]
      rw [ih (n / 10) acc hdiv]
      have : n = 10 * (n / 10) + n % 10 := (Nat.div_add_mod n 10).symm
      rw [pow_succ]
      ring_nf
      omega

theorem parseDigits_natDigits (n : ℕ) :
    parseDigits ((natDigits n).map digitChar) = some n := by
  by_cases h0 : n = 0
  · subst h0; rfl
  · have hne : natDigitsAux n n ≠ [] := by
      cases hfuel : n with
      | zero => exact absurd hfuel h0
      | succ m =>
        simp only [natDigitsAux, h0, if_false]
        intro hcontra
        exact absurd hcontra (by simp)
    have hdigits : natDigits n = natDigitsAux n n := by simp [natDigits, h0]
    rw [hdigits]
    have hcons : ∃ c cs, (natDigitsAux n n).map digitChar = c :: cs := by
      cases hd : natDigitsAux n n with
      | nil => exact absurd hd hne
      | cons a as => exact ⟨digitChar a, as.map digitChar, by simp [hd]⟩
    rcases hcons with ⟨c, cs, hcs⟩
    have hparse : parseDigits ((natDigitsAux n n).map digitChar) =
        parseDigitsAux 0 ((natDigitsAux n n).map digitChar) := by
      rw [hcs]; rfl
    rw [hparse, parseDigitsAux_map_digitChar _ (natDigitsAux_lt_ten n n) 0,
      natDigitsAux_foldl n n 0 le_rfl]
    simp

end DecimalDigits

section CircuitBreakerModel

/-!
## `src/core/CircuitBreaker.ts`

The class holds a private `state`; we model `evaluate` and `reset` as
functions of that state.
-/

/-- `CircuitState` from `CircuitBreaker.ts`. -/
structure CircuitState where
  halted : Bool
  reasons : List String
  manualResetRequired : Bool
deriving DecidableEq, Repr

/-- `CircuitConfig` from `CircuitBreaker.ts`. -/
structure CircuitConfig where
  maxDailyDrawdownPct : ℚ
  maxConsecutiveLargeLosses : ℚ
  volatilitySpikePct : ℚ
deriving DecidableEq, Repr

/-- The anonymous input record of `CircuitBreaker.evaluate`. -/
structure CircuitInput where
  dailyDrawdownPct : ℚ
  consecutiveLargeLosses : ℚ
  volatilityPct : ℚ
  wsUnstable : Bool
deriving DecidableEq, Repr

/-- Initial private state of a fresh `CircuitBreaker`. -/
def CircuitBreaker.initial : CircuitState :=
  { halted := false, reasons := [], manualResetRequired := false }

/-- The reason list accumulated at the top of `CircuitBreaker.evaluate`. -/
def CircuitBreaker.collectReasons (input : CircuitInput) (cfg : CircuitConfig) : List String :=
  (if input.dailyDrawdownPct > cfg.maxDailyDrawdownPct then ["Daily drawdown exceeded"] else []) ++
  (if input.consecutiveLargeLosses ≥ cfg.maxConsecutiveLargeLosses then ["Consecutive large losses"] else []) ++
  (if input.volatilityPct > cfg.volatilitySpikePct then ["Volatility spike"] else []) ++
  (if input.wsUnstable then ["WebSocket unstable"] else [])

/-- `CircuitBreaker.evaluate`: latches the halted state whenever at least one
reason fires, otherwise returns the stored state unchanged. -/
def CircuitBreaker.evaluate (state : CircuitState) (input : CircuitInput)
    (cfg : CircuitConfig) : CircuitState :=
  let reasons := CircuitBreaker.collectReasons input cfg
  if reasons.length > 0 then
    { halted := true, reasons := reasons, manualResetRequired := true }
  else
    state

/-- `CircuitBreaker.reset`. -/
def CircuitBreaker.reset : CircuitState :=
  { halted := false, reasons := [], manualResetRequired := false }

/-- A sequence of `evaluate` calls folded over the breaker state. -/
def CircuitBreaker.runSequence (state : CircuitState)
    (calls : List (CircuitInput × CircuitConfig)) : CircuitState :=
  calls.foldl (fun st call => CircuitBreaker.evaluate st call.1 call.2) state

/-- `ActionType` enum from `src/types.ts`. -/
inductive ActionType where
  | BUY
  | SELL
  | HOLD
deriving DecidableEq, Repr

/-- The post-signal gating portion of `MultiSymbolEngine.evaluateSymbol`
(`src/core/MultiSymbolEngine.ts`, confidence gate, per-bar de-dup guard,
circuit-breaker gate and the BUY/SELL branches).  External collaborators
(risk manager verdict, open-position bookkeeping) enter as parameters; the
result is the breaker state after `evaluate` together with the side of the
order the engine goes on to execute, or `none` when it returns early. -/
def MultiSymbolEngine.orderGate (decisionAction : ActionType) (confidence threshold : ℚ)
    (lastDecisionTs : Option ℤ) (candleTs : ℤ) (breaker : CircuitState)
    (input : CircuitInput) (cfg : CircuitConfig)
    (hasOpenPosition riskAllowed : Bool) : CircuitState × Option ActionType :=
  let finalAction :=
    if decisionAction ≠ ActionType.HOLD ∧ confidence < threshold then ActionType.HOLD
    else decisionAction
  if finalAction = ActionType.HOLD then (breaker, none)
  else if lastDecisionTs = some candleTs then (breaker, none)
  else
    let cb := CircuitBreaker.evaluate breaker input cfg
    if cb.halted then (cb, none)
    else if finalAction = ActionType.BUY then
      if hasOpenPosition then (cb, none)
      else if riskAllowed then (cb, some ActionType.BUY) else (cb, none)
    else
      if hasOpenPosition then (cb, some ActionType.SELL) else (cb, none)

end CircuitBreakerModel

section MarketStreamModel

/-!
## `src/core/MarketStreamService.ts`, `scheduleReconnect`

The per-symbol reconnect counter is modelled as a natural number; each call
increments it and schedules the next connection attempt after the computed
backoff delay (milliseconds).
-/

/-- One call of `scheduleReconnect` for a symbol: returns the updated attempt
counter and the backoff delay `Math.min(30_000, 500 * 2 ** attempt)` used for
the `setTimeout`. -/
def MarketStreamService.scheduleReconnect (attemptBefore : ℕ) : ℕ × ℕ :=
  let attempt := attemptBefore + 1
  (attempt, min 30000 (500 * 2 ^ attempt))

/-- The delay scheduled by the n-th `scheduleReconnect` call for a symbol
whose counter starts at zero (n counted from 1). -/
def MarketStreamService.nthReconnectDelay (n : ℕ) : ℕ :=
  (MarketStreamService.scheduleReconnect (n - 1)).2

end MarketStreamModel

/-- C3: the circuit breaker is latching: once a `runSequence` prefix halts, any
continuation stays halted regardless of inputs; `reset` installs
`{halted := false, reasons := [], manualResetRequired := false}`; and the
engine's order gate places no order once the evaluated breaker state is
halted. -/
theorem circuitBreaker_latching_and_gate
    (s : CircuitState) (pre post : List (CircuitInput × CircuitConfig))
    (hpre : (CircuitBreaker.runSequence s pre).halted = true)
    (a : ActionType) (conf th : ℚ) (lts : Option ℤ) (ts : ℤ)
    (b : CircuitState) (i : CircuitInput) (c : CircuitConfig) (hop ra : Bool)
    (hhalt : (CircuitBreaker.evaluate b i c).halted = true) :
    (CircuitBreaker.runSequence s (pre ++ post)).halted = true ∧
    CircuitBreaker.reset =
      { halted := false, reasons := [], manualResetRequired := false } ∧
    (MultiSymbolEngine.orderGate a conf th lts ts b i c hop ra).2 = none := by
  have hstep : ∀ (st : CircuitState) (call : CircuitInput × CircuitConfig),
      st.halted = true → (CircuitBreaker.evaluate st call.1 call.2).halted = true := by
    intro st call h
    by_cases hc : (CircuitBreaker.collectReasons call.1 call.2).length > 0 <;>
      simp [CircuitBreaker.evaluate, hc, h]
  refine ⟨?_, rfl, ?_⟩
  · unfold CircuitBreaker.runSequence at hpre ⊢
    rw [List.foldl_append]
    revert hpre
    generalize (List.foldl (fun st call => CircuitBreaker.evaluate st call.1 call.2) s pre) = mid
    intro hmid
    induction post generalizing mid with
    | nil => exact hmid
    | cons hd tl ih =>
      exact ih _ (hstep mid hd hmid)
  · simp only [MultiSymbolEngine.orderGate]
    split_ifs <;> simp_all

/-- Witness for C3: a drawdown breach latches the breaker; a later in-bounds
evaluation stays halted, and the order gate emits no order. -/
theorem circuitBreaker_latching_and_gate_witness :
    (CircuitBreaker.runSequence CircuitBreaker.initial
      [(⟨9, 0, 0, false⟩, ⟨5, 3, 6⟩), (⟨0, 0, 0, false⟩, ⟨5, 3, 6⟩)]).halted = true ∧
    CircuitBreaker.reset =
      { halted := false, reasons := [], manualResetRequired := false } ∧
    (MultiSymbolEngine.orderGate ActionType.BUY 0.9 0.6 none 0
      ⟨true, ["Daily drawdown exceeded"], true⟩ ⟨0, 0, 0, false⟩ ⟨5, 3, 6⟩
      false true).2 = none :=
  circuitBreaker_latching_and_gate CircuitBreaker.initial
    [(⟨9, 0, 0, false⟩, ⟨5, 3, 6⟩)] [(⟨0, 0, 0, false⟩, ⟨5, 3, 6⟩)]
    (by decide)
    ActionType.BUY 0.9 0.6 none 0
    ⟨true, ["Daily drawdown exceeded"], true⟩ ⟨0, 0, 0, false⟩ ⟨5, 3, 6⟩
    false true (by decide)

/-- C8 counterexample: the first reconnect delay is 1000 ms, not
`min(30000, 500 * 2^(1-1)) = 500` ms as the claim states. -/
theorem reconnectDelay_claim_cex :
    MarketStreamService.nthReconnectDelay 1 = 1000 ∧
    MarketStreamService.nthReconnectDelay 1 ≠ min 30000 (500 * 2 ^ (1 - 1)) := by
  constructor <;> decide

/-- C8 (amended): the delay before the n-th reconnect attempt of a symbol is
`min(30000, 500 * 2^n)` ms — it starts at 1000 ms, doubles each attempt, and
is capped at 30 s. -/
theorem reconnectDelay_formula (n : ℕ) (h : 1 ≤ n) :
    MarketStreamService.nthReconnectDelay n = min 30000 (500 * 2 ^ n) ∧
    MarketStreamService.nthReconnectDelay (n + 1) =
      min 30000 (2 * MarketStreamService.nthReconnectDelay n) := by
  constructor
  · unfold MarketStreamService.nthReconnectDelay MarketStreamService.scheduleReconnect
    have : n - 1 + 1 = n := Nat.succ_pred_eq_of_pos h
    simp [this]
  · unfold MarketStreamService.nthReconnectDelay MarketStreamService.scheduleReconnect
    have h1 : n - 1 + 1 = n := Nat.succ_pred_eq_of_pos h
    have h2 : n + 1 - 1 + 1 = n + 1 := rfl
    simp only [h1, h2]
    have hmono : 500 * 2 ^ n ≤ 500 * 2 ^ (n + 1) := by
      have hp : (2 : ℕ) ^ n ≤ 2 ^ (n + 1) := Nat.pow_le_pow_right (by norm_num) (Nat.le_succ n)
      exact Nat.mul_le_mul_left 500 hp
    have hdouble : 2 * (500 * 2 ^ n) = 500 * 2 ^ (n + 1) := by ring
    rcases le_or_lt (500 * 2 ^ (n + 1)) 30000 with hle | hgt
    · have hle' : 500 * 2 ^ n ≤ 30000 := le_trans hmono hle
      rw [min_eq_right hle, min_eq_right hle', hdouble, min_eq_right hle]
    · rcases le_or_lt (500 * 2 ^ n) 30000 with hle' | hgt'
      · rw [min_eq_left (le_of_lt hgt), min_eq_right hle', hdouble,
          min_eq_left (le_of_lt hgt)]
      · rw [min_eq_left (le_of_lt hgt), min_eq_left (le_of_lt hgt')]
        norm_num

/-- Witness for C8: the third reconnect delay is `min(30000, 500*2^3) = 4000`
and the fourth doubles it. -/
theorem reconnectDelay_formula_witness :
    MarketStreamService.nthReconnectDelay 3 = min 30000 (500 * 2 ^ 3) ∧
    MarketStreamService.nthReconnectDelay 4 =
      min 30000 (2 * MarketStreamService.nthReconnectDelay 3) :=
  reconnectDelay_formula 3 (by decide)

section RefinementEngineModel

/-!
## `src/core/RefinementEngine.ts` (source file with unknown name)

The class fields `version` and `closedCountByVersion` form the engine state;
`Date.now()` enters as an explicit `now` parameter (it is only copied into the
`timestamp` output field).  Number formatting inside the human-readable
`reasons` strings is rendered with `toString` of the rational, which differs
textually from JavaScript `toFixed` but carries the same information.
-/

/-- `Candle` from `src/types.ts`.  The fields `time`, `open` and the optional
MACD/volume-SMA annotations are never read by any modelled function and are
omitted. -/
structure Candle where
  timestamp : ℤ
  high : ℚ
  low : ℚ
  close : ℚ
  volume : ℚ
  rsi : Option ℚ
  emaShort : Option ℚ
  emaLong : Option ℚ
  atr : Option ℚ
deriving DecidableEq, Repr

/-- Regime labels of `RefinementDecision` (distinct from `MarketRegime`). -/
inductive RefRegime where
  | TRENDING
  | RANGING
  | VOLATILE
deriving DecidableEq, Repr

/-- `StrategyEvaluation` returned by `RefinementEngine.evaluate`. -/
structure StrategyEvaluation where
  decision : ActionType
  confidence : ℚ
  reasons : List String
  timestamp : ℤ
deriving DecidableEq, Repr

/-- `RefinementDecision` returned by `RefinementEngine.decide`. -/
structure RefinementDecision where
  action : ActionType
  confidence : ℚ
  regime : RefRegime
  modelVersion : String
  reasons : List String
  timestamp : ℤ
deriving DecidableEq, Repr

/-- The mutable fields of a `RefinementEngine` instance. -/
structure RefinementEngineState where
  version : String
  closedCountByVersion : List (String × ℕ)
deriving DecidableEq, Repr

/-- `RefinementEngine.evaluate`. -/
def RefinementEngine.evaluate (st : RefinementEngineState) (candles : List Candle)
    (now : ℤ) : StrategyEvaluation :=
  match candles.getLast? with
  | none =>
      { decision := ActionType.HOLD, confidence := 0,
        reasons := ["No candle data available."], timestamp := now }
  | some last =>
      let trend := (jsOrQ last.emaShort last.close - jsOrQ last.emaLong last.close) /
        max last.close 1
      let vol := jsOrQ last.atr 0 / max last.close 1
      let rawConfidence := clamp (|trend| * 350 + (jsOrQ last.rsi 50 - 50) / 100) 0 1
      let decay :=
        max 0.7 (1 - ((st.closedCountByVersion.lookup st.version).getD 0 : ℚ) * 0.002)
      let confidence := clamp (rawConfidence * decay) 0 1
      let decision :=
        if trend > 0.0012 then ActionType.BUY
        else if trend < -0.0012 then ActionType.SELL
        else ActionType.HOLD
      { decision := decision, confidence := confidence,
        reasons :=
          ["trend=" ++ toString (roundTo 6 trend),
           "volatility=" ++ toString (roundTo 6 vol),
           "rsi=" ++ toString (roundTo 2 (jsOrQ last.rsi 50)),
           if decision = ActionType.HOLD then "No directional edge above decision threshold."
           else "Directional edge detected."],
        timestamp := now }

/-- `RefinementEngine.decide`. -/
def RefinementEngine.decide (st : RefinementEngineState) (candles : List Candle)
    (now : ℤ) : RefinementDecision :=
  let evaluation := RefinementEngine.evaluate st candles now
  let trend :=
    match candles.getLast? with
    | some last =>
        (jsOrQ last.emaShort last.close - jsOrQ last.emaLong last.close) / max last.close 1
    | none => 0
  let vol :=
    match candles.getLast? with
    | some last => jsOrQ last.atr 0 / max last.close 1
    | none => 0
  let regime :=
    if vol > 0.02 then RefRegime.VOLATILE
    else if |trend| > 0.0015 then RefRegime.TRENDING
    else RefRegime.RANGING
  { action := evaluation.decision, confidence := evaluation.confidence,
    regime := regime, modelVersion := st.version,
    reasons := evaluation.reasons, timestamp := evaluation.timestamp }

end RefinementEngineModel

/-- The action of `RefinementEngine.decide` does not depend on the wall clock. -/
theorem RefinementEngine.decide_action_time_invariant
    (st : RefinementEngineState) (candles : List Candle) (t₁ t₂ : ℤ) :
    (RefinementEngine.decide st candles t₁).action =
      (RefinementEngine.decide st candles t₂).action ∧
    (RefinementEngine.decide st candles t₁).confidence =
      (RefinementEngine.decide st candles t₂).confidence := by
  cases h : candles.getLast? <;>
    simp [RefinementEngine.decide, RefinementEngine.evaluate, h]

/-- C9: `RefinementEngine.decide` is deterministic in its decision outputs:
for a fixed candle list and fixed engine state, any number of repeated calls
(modelled as calls at arbitrary wall-clock times, the only varying input)
return the same action, and the confidences of any two calls differ by less
than 1e-12 (they are equal). -/
theorem RefinementEngine.decide_deterministic
    (st : RefinementEngineState) (candles : List Candle) (times : List ℤ)
    (d₁ d₂ : RefinementDecision)
    (h₁ : d₁ ∈ times.map (RefinementEngine.decide st candles))
    (h₂ : d₂ ∈ times.map (RefinementEngine.decide st candles)) :
    d₁.action = d₂.action ∧ |d₁.confidence - d₂.confidence| < 1 / 10 ^ 12 := by
  rcases List.mem_map.mp h₁ with ⟨t₁, -, rfl⟩
  rcases List.mem_map.mp h₂ with ⟨t₂, -, rfl⟩
  obtain ⟨ha, hc⟩ := RefinementEngine.decide_action_time_invariant st candles t₁ t₂
  refine ⟨ha, ?_⟩
  rw [hc]
  norm_num

/-- Witness for C9: two calls at different clock times on a one-candle history
agree on action and confidence. -/
theorem RefinementEngine.decide_deterministic_witness :
    (RefinementEngine.decide ⟨"rf-1", []⟩
        [⟨0, 101, 99, 100, 5, some 55, some 100.5, some 100, some 1⟩] 17).action =
      (RefinementEngine.decide ⟨"rf-1", []⟩
        [⟨0, 101, 99, 100, 5, some 55, some 100.5, some 100, some 1⟩] 99).action ∧
    |(RefinementEngine.decide ⟨"rf-1", []⟩
        [⟨0, 101, 99, 100, 5, some 55, some 100.5, some 100, some 1⟩] 17).confidence -
      (RefinementEngine.decide ⟨"rf-1", []⟩
        [⟨0, 101, 99, 100, 5, some 55, some 100.5, some 100, some 1⟩] 99).confidence| <
      1 / 10 ^ 12 :=
  RefinementEngine.decide_deterministic ⟨"rf-1", []⟩
    [⟨0, 101, 99, 100, 5, some 55, some 100.5, some 100, some 1⟩] [17, 99] _ _
    (by simp) (by simp)

section TradingTypes

/-- `TradeExitReason` from `src/types.ts`. -/
inductive TradeExitReason where
  | SIGNAL
  | STOP_LOSS
  | TAKE_PROFIT
  | MANUAL
deriving DecidableEq, Repr

/-- `MarketRegime` from `src/types.ts`. -/
inductive MarketRegime where
  | TRENDING_UP
  | TRENDING_DOWN
  | RANGING
  | CHOP
  | HIGH_VOLATILITY
deriving DecidableEq, Repr

/-- `Trade` from `src/types.ts`.  The purely informational fields
(`scoreBreakdown`, `indicatorsSnapshot`, `entryReason`, `aiNotes`,
`simulation`, `decisionId`, `idempotencyKey`) are never read by any modelled
function and are omitted. -/
structure Trade where
  id : String
  symbol : String
  type : ActionType
  price : ℚ
  amount : ℚ
  timestamp : ℤ
  pnl : Option ℚ
  fee : ℚ
  stopLoss : Option ℚ
  takeProfit : Option ℚ
  exitReason : Option TradeExitReason
  marketRegime : Option MarketRegime
  setupScore : Option ℚ
  rMultiple : Option ℚ
  strategyVersion : Option String
deriving DecidableEq, Repr

end TradingTypes

section StrategyStateModel

/-!
## `src/services/engine/strategyState.ts`

`localStorage` persistence is modelled by passing the current (already
parsed) stored state explicitly: `loadStrategyState` normalizes an optional
raw record, and the write-back of `saveStrategyState` is its return value.
-/

/-- `StrategyParameters` from `src/types.ts`. -/
structure StrategyParameters where
  minScore : ℚ
  atrMultiplier : ℚ
  stopLossATR : ℚ
  takeProfitATR : ℚ
  maxRiskPerTradePct : ℚ
  dailyMaxLossPct : ℚ
  maxConcurrentTrades : ℚ
  killSwitchLosses : ℚ
  minAtrPct : ℚ
  maxAtrPct : ℚ
deriving DecidableEq, Repr

/-- `DEFAULT_STRATEGY_PARAMETERS`. -/
def DEFAULT_STRATEGY_PARAMETERS : StrategyParameters :=
  { minScore := 0.68, atrMultiplier := 1.2, stopLossATR := 1.6, takeProfitATR := 2.4,
    maxRiskPerTradePct := 0.012, dailyMaxLossPct := 0.04, maxConcurrentTrades := 2,
    killSwitchLosses := 3, minAtrPct := 0.002, maxAtrPct := 0.03 }

/-- `StrategyVersionRecord` from `src/types.ts`. -/
structure StrategyVersionRecord where
  version : String
  timestamp : ℤ
  parameters : StrategyParameters
  notes : List String
deriving DecidableEq, Repr

/-- `StrategyState` from `src/types.ts`. -/
structure StrategyState where
  version : String
  parameters : StrategyParameters
  lastRefinementTime : Option ℤ
  history : List StrategyVersionRecord
  warnings : List String
deriving DecidableEq, Repr

/-- `buildInitialState`. -/
def buildInitialState : StrategyState :=
  { version := "v1", parameters := DEFAULT_STRATEGY_PARAMETERS,
    lastRefinementTime := none, history := [], warnings := [] }

/-- `parseVersionNumber`: strips one leading `v`/`V` and parses the decimal
remainder (`Number` restricted to digit strings, which covers every version
the engine writes); any parse failure or non-positive value falls back to 1. -/
def parseVersionNumber (version : String) : ℕ :=
  let cs := version.data
  let stripped :=
    match cs with
    | c :: rest => if c = 'v' ∨ c = 'V' then rest else cs
    | [] => []
  match parseDigits stripped with
  | some numeric => if 0 < numeric then numeric else 1
  | none => 1

/-- `nextVersion`. -/
def nextVersion (currentVersion : String) : String :=
  String.mk ('v' :: (natDigits (parseVersionNumber currentVersion + 1)).map digitChar)

/-- `sanitizeParameters` (`Math.round` is round-half-up, i.e. `roundTo 0`). -/
def sanitizeParameters (raw : StrategyParameters) : StrategyParameters :=
  { minScore := max 0.5 (min 0.95 raw.minScore),
    atrMultiplier := max 0.6 (min 2.5 raw.atrMultiplier),
    stopLossATR := max 0.8 (min 3.5 raw.stopLossATR),
    takeProfitATR := max 1.2 (min 5 raw.takeProfitATR),
    maxRiskPerTradePct := max 0.003 (min 0.03 raw.maxRiskPerTradePct),
    dailyMaxLossPct := max 0.01 (min 0.1 raw.dailyMaxLossPct),
    maxConcurrentTrades := max 1 (min 5 (roundTo 0 raw.maxConcurrentTrades)),
    killSwitchLosses := max 2 (min 6 (roundTo 0 raw.killSwitchLosses)),
    minAtrPct := max 0.0008 (min 0.02 raw.minAtrPct),
    maxAtrPct := max 0.005 (min 0.08 raw.maxAtrPct) }

/-- The shape of a parsed `strategy_state.json` payload (every field may be
missing; the source also drops non-string warning entries, which the typed
model does not need to repeat). -/
structure RawStrategyState where
  version : Option String
  parameters : Option StrategyParameters
  lastRefinementTime : Option ℤ
  history : Option (List StrategyVersionRecord)
  warnings : Option (List String)
deriving DecidableEq, Repr

/-- `loadStrategyState`, as a function of the parsed stored payload (`none`
models a missing/corrupt record, which yields the initial fallback state). -/
def loadStrategyState (stored : Option RawStrategyState) : StrategyState :=
  match stored with
  | none => buildInitialState
  | some parsed =>
      { version := parsed.version.getD buildInitialState.version,
        parameters := sanitizeParameters (parsed.parameters.getD DEFAULT_STRATEGY_PARAMETERS),
        lastRefinementTime := parsed.lastRefinementTime,
        history := (parsed.history.getD []).take 40,
        warnings := (parsed.warnings.getD []).take 20 }

/-- `saveStrategyState`: normalization applied before the write-back. -/
def saveStrategyState (state : StrategyState) : StrategyState :=
  { state with
    parameters := sanitizeParameters state.parameters,
    history := state.history.take 40,
    warnings := state.warnings.take 20 }

/-- `commitStrategyParameters`, as a function of the currently loaded state. -/
def commitStrategyParameters (current : StrategyState) (parameters : StrategyParameters)
    (notes : List String) (timestamp : ℤ) : StrategyState :=
  let newVersion := nextVersion current.version
  let record : StrategyVersionRecord :=
    { version := newVersion, timestamp := timestamp, parameters := parameters,
      notes := notes }
  saveStrategyState
    { version := newVersion,
      parameters := sanitizeParameters parameters,
      lastRefinementTime := some timestamp,
      history := (record :: current.history).take 40,
      warnings := current.warnings.take 20 }

/-- `updateStrategyWarnings`, as a function of the currently loaded state. -/
def updateStrategyWarnings (current : StrategyState) (warnings : List String) :
    StrategyState :=
  saveStrategyState { current with warnings := warnings.take 20 }

end StrategyStateModel

/-- `parseVersionNumber` never returns zero. -/
theorem one_le_parseVersionNumber (v : String) : 1 ≤ parseVersionNumber v := by
  unfold parseVersionNumber
  dsimp only
  split
  · split <;> omega
  · omega

/-- Parsing `v` followed by the decimal digits of a positive `m` recovers `m`. -/
theorem parseVersionNumber_mk (m : ℕ) (hm : 0 < m) :
    parseVersionNumber (String.mk ('v' :: (natDigits m).map digitChar)) = m := by
  have h1 : parseVersionNumber (String.mk ('v' :: (natDigits m).map digitChar)) =
      match parseDigits ((natDigits m).map digitChar) with
      | some numeric => if 0 < numeric then numeric else 1
      | none => 1 := rfl
  rw [h1, parseDigits_natDigits]
  simp [hm]

/-- Round-trip: the numeric suffix of `nextVersion v` is one more than the
parsed numeric value of `v`. -/
theorem parseVersionNumber_nextVersion (v : String) :
    parseVersionNumber (nextVersion v) = parseVersionNumber v + 1 := by
  unfold nextVersion
  exact parseVersionNumber_mk _ (by omega)

/-- A strategy state whose history already contains a version numerically
above the current one (`loadStrategyState` accepts any stored history). -/
def exInflatedStrategyState : StrategyState :=
  { version := "v1", parameters := DEFAULT_STRATEGY_PARAMETERS,
    lastRefinementTime := none,
    history := [{ version := "v100", timestamp := 0,
                  parameters := DEFAULT_STRATEGY_PARAMETERS, notes := [] }],
    warnings := [] }

/-- C4 counterexample: committing on a state whose stored history holds the
version `v100` yields version `v2`, which is not greater than all prior
history versions by numeric suffix. -/
theorem commitStrategyParameters_history_claim_cex :
    (commitStrategyParameters exInflatedStrategyState DEFAULT_STRATEGY_PARAMETERS [] 5).version
        = "v2" ∧
    "v100" ∈ exInflatedStrategyState.history.map (fun r => r.version) ∧
    ¬ (∀ r ∈ exInflatedStrategyState.history,
        parseVersionNumber r.version <
          parseVersionNumber
            (commitStrategyParameters exInflatedStrategyState
              DEFAULT_STRATEGY_PARAMETERS [] 5).version) := by
  refine ⟨rfl, by simp [exInflatedStrategyState], ?_⟩
  intro h
  have := h { version := "v100", timestamp := 0,
              parameters := DEFAULT_STRATEGY_PARAMETERS, notes := [] }
    (by simp [exInflatedStrategyState])
  revert this
  decide

/-- C4 (amended): `commitStrategyParameters` strictly increases the numeric
version suffix (so the new version exceeds every prior history version
whenever those do not already exceed the current one — which an adversarial
stored history can violate), and every strategy-state operation returns a
history of length at most 40 and a warnings list of length at most 20. -/
theorem strategyState_version_monotone_and_bounds
    (current : StrategyState) (p : StrategyParameters) (notes : List String) (ts : ℤ)
    (stored : Option RawStrategyState) (st : StrategyState) (ws : List String)
    (hhist : ∀ r ∈ current.history,
      parseVersionNumber r.version ≤ parseVersionNumber current.version) :
    parseVersionNumber current.version <
      parseVersionNumber (commitStrategyParameters current p notes ts).version ∧
    (∀ r ∈ current.history,
      parseVersionNumber r.version <
        parseVersionNumber (commitStrategyParameters current p notes ts).version) ∧
    (loadStrategyState stored).history.length ≤ 40 ∧
    (loadStrategyState stored).warnings.length ≤ 20 ∧
    (saveStrategyState st).history.length ≤ 40 ∧
    (saveStrategyState st).warnings.length ≤ 20 ∧
    (commitStrategyParameters current p notes ts).history.length ≤ 40 ∧
    (commitStrategyParameters current p notes ts).warnings.length ≤ 20 ∧
    (updateStrategyWarnings st ws).history.length ≤ 40 ∧
    (updateStrategyWarnings st ws).warnings.length ≤ 20 := by
  have hver : (commitStrategyParameters current p notes ts).version =
      nextVersion current.version := rfl
  have hlt : parseVersionNumber current.version <
      parseVersionNumber (commitStrategyParameters current p notes ts).version := by
    rw [hver, parseVersionNumber_nextVersion]
    omega
  refine ⟨hlt, fun r hr => lt_of_le_of_lt (hhist r hr) hlt, ?_, ?_, ?_, ?_, ?_, ?_, ?_, ?_⟩
  · cases stored <;> simp [loadStrategyState, buildInitialState, List.length_take]
  · cases stored <;> simp [loadStrategyState, buildInitialState, List.length_take]
  · simp [saveStrategyState, List.length_take]
  · simp [saveStrategyState, List.length_take]
  · simp [commitStrategyParameters, saveStrategyState, List.length_take]
  · simp [commitStrategyParameters, saveStrategyState, List.length_take]
  · simp [updateStrategyWarnings, saveStrategyState, List.length_take]
  · simp [updateStrategyWarnings, saveStrategyState, List.length_take]

/-- Witness for C4: on a state at version `v3` whose history holds `v2` and
`v3`, the committed version `v4` numerically exceeds the current version and
every history version, and all bounds hold. -/
theorem strategyState_version_monotone_and_bounds_witness :
    parseVersionNumber "v3" <
      parseVersionNumber
        (commitStrategyParameters
          { version := "v3", parameters := DEFAULT_STRATEGY_PARAMETERS,
            lastRefinementTime := none,
            history := [{ version := "v3", timestamp := 0,
                          parameters := DEFAULT_STRATEGY_PARAMETERS, notes := [] },
                        { version := "v2", timestamp := 0,
                          parameters := DEFAULT_STRATEGY_PARAMETERS, notes := [] }],
            warnings := [] }
          DEFAULT_STRATEGY_PARAMETERS [] 7).version ∧
    (∀ r ∈ ({ version := "v3", parameters := DEFAULT_STRATEGY_PARAMETERS,
              lastRefinementTime := none,
              history := [{ version := "v3", timestamp := 0,
                            parameters := DEFAULT_STRATEGY_PARAMETERS, notes := [] },
                          { version := "v2", timestamp := 0,
                            parameters := DEFAULT_STRATEGY_PARAMETERS, notes := [] }],
              warnings := [] } : StrategyState).history,
      parseVersionNumber r.version <
        parseVersionNumber
          (commitStrategyParameters
            { version := "v3", parameters := DEFAULT_STRATEGY_PARAMETERS,
              lastRefinementTime := none,
              history := [{ version := "v3", timestamp := 0,
                            parameters := DEFAULT_STRATEGY_PARAMETERS, notes := [] },
                          { version := "v2", timestamp := 0,
                            parameters := DEFAULT_STRATEGY_PARAMETERS, notes := [] }],
              warnings := [] }
            DEFAULT_STRATEGY_PARAMETERS [] 7).version) := by
  have h := strategyState_version_monotone_and_bounds
    { version := "v3", parameters := DEFAULT_STRATEGY_PARAMETERS,
      lastRefinementTime := none,
      history := [{ version := "v3", timestamp := 0,
                    parameters := DEFAULT_STRATEGY_PARAMETERS, notes := [] },
                  { version := "v2", timestamp := 0,
                    parameters := DEFAULT_STRATEGY_PARAMETERS, notes := [] }],
      warnings := [] }
    DEFAULT_STRATEGY_PARAMETERS [] 7 none buildInitialState []
    (by intro r hr; fin_cases hr <;> decide)
  exact ⟨h.1, h.2.1⟩

section PerformanceAnalyzerModel

/-!
## `src/services/engine/performanceAnalyzer.ts` and
## `src/services/ai/strategyRefiner.ts`

JavaScript's stable `Array.prototype.sort` with the comparator
`(a, b) => a.timestamp - b.timestamp` is modelled by the stable
`List.insertionSort`.  The JavaScript value `Infinity` (the profit factor of
a loss-free window) is modelled by `PFValue.infinite`, with `PFValue.ge`
reproducing the IEEE comparison used by `>=`.
-/

/-- A JavaScript number that may be `Infinity`: the `profitFactor` metric. -/
inductive PFValue where
  | finite (q : ℚ)
  | infinite
deriving DecidableEq, Repr

/-- JavaScript `a >= b` on profit factors (`Infinity >= x` is true,
`x >= Infinity` is false for finite `x`). -/
def PFValue.ge : PFValue → PFValue → Bool
  | .infinite, _ => true
  | .finite _, .infinite => false
  | .finite a, .finite b => a ≥ b

/-- `PerformanceMetrics` from `src/types.ts`. -/
structure PerformanceMetrics where
  totalTrades : ℕ
  closedTrades : ℕ
  winRate : ℚ
  expectancy : ℚ
  avgR : ℚ
  maxDrawdownPct : ℚ
  profitFactor : PFValue
  grossProfit : ℚ
  grossLossAbs : ℚ
deriving DecidableEq, Repr

/-- `INITIAL_BALANCE` from `src/constants.ts`. -/
def INITIAL_BALANCE : ℚ := 1000

/-- `safeDivide`. -/
def safeDivide (a b : ℚ) : ℚ := if b = 0 then 0 else a / b

/-- `closedTradesAscending`: SELL trades carrying a numeric `pnl`, in
ascending timestamp order (stable). -/
def closedTradesAscending (trades : List Trade) : List Trade :=
  (trades.filter fun t => t.type = ActionType.SELL ∧ t.pnl.isSome).insertionSort
    fun a b => a.timestamp ≤ b.timestamp

/-- The running-equity drawdown loop of `calculatePerformanceMetrics`:
folds `(equity, peak, maxDrawdownPct)` over the closed trades. -/
def drawdownFold (initialBalance : ℚ) (closed : List Trade) : ℚ × ℚ × ℚ :=
  closed.foldl
    (fun acc trade =>
      let equity := acc.1 + jsOrQ trade.pnl 0
      let peak := max acc.2.1 equity
      let drawdown := if 0 < peak then (peak - equity) / peak * 100 else 0
      (equity, peak, max acc.2.2 drawdown))
    (initialBalance, initialBalance, 0)

/-- `calculatePerformanceMetrics`. -/
def calculatePerformanceMetrics (trades : List Trade) (initialBalance : ℚ) :
    PerformanceMetrics :=
  let closed := closedTradesAscending trades
  let closedCount := closed.length
  let wins := closed.filter fun t => 0 < jsOrQ t.pnl 0
  let losses := closed.filter fun t => jsOrQ t.pnl 0 < 0
  let grossProfit := (wins.map fun t => jsOrQ t.pnl 0).sum
  let grossLossAbs := (losses.map fun t => |jsOrQ t.pnl 0|).sum
  let expectancy := safeDivide ((closed.map fun t => jsOrQ t.pnl 0).sum) closedCount
  let avgR := safeDivide ((closed.map fun t => jsOrQ t.rMultiple 0).sum)
    ((closed.filter fun t => t.rMultiple.isSome).length)
  let winRate := safeDivide (wins.length) closedCount * 100
  let profitFactor :=
    if 0 < grossLossAbs then PFValue.finite (grossProfit / grossLossAbs)
    else if 0 < grossProfit then PFValue.infinite
    else PFValue.finite 0
  { totalTrades := trades.length, closedTrades := closedCount, winRate := winRate,
    expectancy := expectancy, avgR := avgR,
    maxDrawdownPct := (drawdownFold initialBalance closed).2.2,
    profitFactor := profitFactor, grossProfit := grossProfit,
    grossLossAbs := grossLossAbs }

/-- `walkForwardFilterTrades`. -/
def walkForwardFilterTrades (trades : List Trade) (parameters : StrategyParameters) :
    List Trade :=
  trades.filter fun trade =>
    trade.type = ActionType.SELL ∧
    parameters.minScore ≤ jsNullish trade.setupScore 0 ∧
    trade.marketRegime ≠ some MarketRegime.CHOP

/-- `splitWalkForward` (`strategyRefiner.ts`): stable sort by timestamp, then
a 70/30 chronological split with `cut = max(1, floor(0.7 * length))`. -/
def splitWalkForward (trades : List Trade) : List Trade × List Trade :=
  let sorted := trades.insertionSort fun a b => a.timestamp ≤ b.timestamp
  let cut := max 1 (sorted.length * 7 / 10)
  (sorted.take cut, sorted.drop cut)

/-- `evaluateCandidate` (`strategyRefiner.ts`): baseline and candidate
walk-forward metrics on the forward split. -/
def evaluateCandidate (trades : List Trade)
    (baselineParams candidateParams : StrategyParameters) :
    PerformanceMetrics × PerformanceMetrics :=
  let forward := (splitWalkForward trades).2
  (calculatePerformanceMetrics (walkForwardFilterTrades forward baselineParams)
      INITIAL_BALANCE,
   calculatePerformanceMetrics (walkForwardFilterTrades forward candidateParams)
      INITIAL_BALANCE)

/-- The walk-forward acceptance decision of `runStrategyRefinementCycle`
(`strategyRefiner.ts`, the `drawdownNotWorse` / `profitFactorImproved` /
`tradeCountOk` checks): the candidate is committed exactly when this
returns `true`. -/
def runRefinementDecision (closed24h : List Trade)
    (baselineParams candidateParams : StrategyParameters) : Bool :=
  let walkForward := evaluateCandidate closed24h baselineParams candidateParams
  let candidateTradeCount := walkForward.2.closedTrades
  let baselineTradeCount := walkForward.1.closedTrades
  let minimumForwardTrades := max 6 (baselineTradeCount / 2)
  let drawdownNotWorse :=
    decide (walkForward.2.maxDrawdownPct ≤ walkForward.1.maxDrawdownPct + 0.000001)
  let profitFactorImproved := PFValue.ge walkForward.2.profitFactor walkForward.1.profitFactor
  let tradeCountOk := decide (minimumForwardTrades ≤ candidateTradeCount)
  drawdownNotWorse && profitFactorImproved && tradeCountOk

/-- The commit-or-reject tail of `runStrategyRefinementCycle` as a state
transformer on the loaded strategy state (the advisor's free-text warnings
enter as a parameter; note strings are abbreviated renderings of the
source's template literals). -/
def applyRefinementDecision (strategy : StrategyState) (closed24h : List Trade)
    (candidate : StrategyParameters) (analysisWarnings : List String) (now : ℤ) :
    StrategyState :=
  if runRefinementDecision closed24h strategy.parameters candidate then
    let notes := ("Refinement cycle " ++ toString now) :: analysisWarnings
    let committed := commitStrategyParameters strategy candidate notes now
    updateStrategyWarnings committed analysisWarnings
  else
    let rejectionWarnings :=
      "Refinement rejected. Previous strategy snapshot retained." ::
      "Drawdown check" :: "Profit factor check" :: "Forward trade count check" ::
      analysisWarnings
    updateStrategyWarnings strategy (rejectionWarnings.take 20)

end PerformanceAnalyzerModel

/-- A closed SELL trade for the walk-forward example: all profitable, regime
RANGING, setup scores 0.75 on indices 35..41 and 0.65 elsewhere. -/
def exRefinerTrade (i : ℕ) : Trade :=
  { id := "t", symbol := "BTC-USDC", type := ActionType.SELL, price := 100,
    amount := 1, timestamp := (i : ℤ), pnl := some 1, fee := 0, stopLoss := none,
    takeProfit := none, exitReason := some TradeExitReason.SIGNAL,
    marketRegime := some MarketRegime.RANGING,
    setupScore := some (if 35 ≤ i ∧ i < 42 then 0.75 else 0.65),
    rMultiple := none, strategyVersion := none }

/-- Fifty closed trades for the walk-forward example. -/
def exRefinerTrades : List Trade := (List.range 50).map exRefinerTrade

/-- Baseline parameters with `minScore = 0.6`. -/
def exBaselineParams : StrategyParameters :=
  { DEFAULT_STRATEGY_PARAMETERS with minScore := 0.6 }

/-- Candidate parameters with `minScore = 0.7`. -/
def exCandidateParams : StrategyParameters :=
  { DEFAULT_STRATEGY_PARAMETERS with minScore := 0.7 }

/-- The `MarketRegime` constructors `RANGING` and `CHOP` differ (evaluation
helper for the walk-forward filter). -/
theorem ranging_ne_chop : (MarketRegime.RANGING = MarketRegime.CHOP) = False := by simp

set_option maxHeartbeats 4000000 in
/-- C2 counterexample: on fifty profitable closed trades the forward split
holds 15 baseline trades and 7 candidate trades; the source accepts the
candidate (its threshold is `max(6, floor(0.5*15)) = 7`), but the claim's
threshold `max(6, 0.5*15) = 7.5` is not met, so the claimed
"if and only if" is false at this input. -/
theorem walkForward_acceptance_claim_cex :
    runRefinementDecision exRefinerTrades exBaselineParams exCandidateParams = true ∧
    (evaluateCandidate exRefinerTrades exBaselineParams exCandidateParams).1.closedTrades
        = 15 ∧
    (evaluateCandidate exRefinerTrades exBaselineParams exCandidateParams).2.closedTrades
        = 7 ∧
    ¬ (max (6 : ℚ)
        (((evaluateCandidate exRefinerTrades exBaselineParams
            exCandidateParams).1.closedTrades : ℚ) * 0.5) ≤
       ((evaluateCandidate exRefinerTrades exBaselineParams
            exCandidateParams).2.closedTrades : ℚ)) := by
  have hmain : runRefinementDecision exRefinerTrades exBaselineParams exCandidateParams
        = true ∧
      (evaluateCandidate exRefinerTrades exBaselineParams
          exCandidateParams).1.closedTrades = 15 ∧
      (evaluateCandidate exRefinerTrades exBaselineParams
          exCandidateParams).2.closedTrades = 7 := by
    norm_num [runRefinementDecision, evaluateCandidate, splitWalkForward,
      walkForwardFilterTrades, calculatePerformanceMetrics, closedTradesAscending,
      drawdownFold, exRefinerTrades, exRefinerTrade, exBaselineParams, exCandidateParams,
      jsOrQ, jsNullish, safeDivide, List.range_succ, List.insertionSort,
      List.orderedInsert, PFValue.ge, DEFAULT_STRATEGY_PARAMETERS, List.filter,
      ranging_ne_chop]
  refine ⟨hmain.1, hmain.2.1, hmain.2.2, ?_⟩
  rw [hmain.2.1, hmain.2.2]
  simp only [max_le_iff, not_and]
  intro h
  norm_num

/-- C2 (amended): the candidate is committed iff, on the forward 30% split,
its max drawdown is at most the baseline's plus the source's 1e-6 tolerance,
its profit factor is at least the baseline's (with the IEEE `Infinity`
convention), and its forward closed-trade count is at least
`max(6, floor(0.5 * baseline count))`; whenever any check fails the previous
parameters and version are retained (warnings only are updated). -/
theorem walkForward_acceptance_iff
    (closed24h : List Trade) (strategy : StrategyState)
    (candidate : StrategyParameters) (aw : List String) (now : ℤ)
    (hsane : sanitizeParameters strategy.parameters = strategy.parameters) :
    (runRefinementDecision closed24h strategy.parameters candidate = true ↔
      ((evaluateCandidate closed24h strategy.parameters candidate).2.maxDrawdownPct ≤
        (evaluateCandidate closed24h strategy.parameters candidate).1.maxDrawdownPct
          + 0.000001 ∧
       PFValue.ge (evaluateCandidate closed24h strategy.parameters candidate).2.profitFactor
         (evaluateCandidate closed24h strategy.parameters candidate).1.profitFactor = true ∧
       max 6 ((evaluateCandidate closed24h strategy.parameters candidate).1.closedTrades / 2)
         ≤ (evaluateCandidate closed24h strategy.parameters candidate).2.closedTrades)) ∧
    (runRefinementDecision closed24h strategy.parameters candidate = false →
      (applyRefinementDecision strategy closed24h candidate aw now).parameters =
        strategy.parameters ∧
      (applyRefinementDecision strategy closed24h candidate aw now).version =
        strategy.version) := by
  constructor
  · unfold runRefinementDecision
    simp [Bool.and_eq_true, decide_eq_true_eq, and_assoc]
  · intro h
    unfold applyRefinementDecision
    rw [h]
    simp only [Bool.false_eq_true, if_false]
    constructor
    · show sanitizeParameters strategy.parameters = strategy.parameters
      exact hsane
    · rfl

/-- Witness for C2: on an empty closed-trade window the decision is `false`
(zero forward trades), and rejection retains the initial parameters and
version. -/
theorem walkForward_acceptance_iff_witness :
    (applyRefinementDecision buildInitialState [] DEFAULT_STRATEGY_PARAMETERS [] 0).parameters
        = buildInitialState.parameters ∧
    (applyRefinementDecision buildInitialState [] DEFAULT_STRATEGY_PARAMETERS [] 0).version
        = buildInitialState.version :=
  (walkForward_acceptance_iff [] buildInitialState DEFAULT_STRATEGY_PARAMETERS [] 0
      (by norm_num [sanitizeParameters, DEFAULT_STRATEGY_PARAMETERS, buildInitialState,
        roundTo])).2
    (by norm_num [runRefinementDecision, evaluateCandidate, splitWalkForward,
      walkForwardFilterTrades, calculatePerformanceMetrics, closedTradesAscending,
      drawdownFold, buildInitialState, List.insertionSort, PFValue.ge, safeDivide,
      DEFAULT_STRATEGY_PARAMETERS])

section BotStateModel

/-!
## Shared bot-engine state (`src/types.ts`)

`Record<string, number>` objects (holdings, average entry prices) are
modelled as insertion-ordered association lists, matching JavaScript object
key semantics: an update `{...m, [k]: v}` replaces the value at an existing
key in place or appends a new key at the end.
-/

/-- `TRADING_FEE_RATE` from `src/constants.ts`. -/
def TRADING_FEE_RATE : ℚ := 0.001

/-- First-match lookup in an association list (JavaScript property read). -/
def lookupQ : List (String × ℚ) → String → Option ℚ
  | [], _ => none
  | p :: rest, k => if p.1 = k then some p.2 else lookupQ rest k

/-- `m[k] || 0`: a missing key reads as zero (and a stored `0` is already
the default, so `getD 0` is exact). -/
def jsGet (m : List (String × ℚ)) (k : String) : ℚ := (lookupQ m k).getD 0

/-- Whether the object has the key. -/
def hasKey : List (String × ℚ) → String → Bool
  | [], _ => false
  | p :: rest, k => p.1 = k || hasKey rest k

/-- `{...m, [k]: v}`: replace in place or append. -/
def setKey (m : List (String × ℚ)) (k : String) (v : ℚ) : List (String × ℚ) :=
  if hasKey m k then m.map fun p => if p.1 = k then (k, v) else p
  else m ++ [(k, v)]

/-- `Position` from `src/types.ts`.  The purely informational fields
(`entryReason`, `indicatorsSnapshot`, `aiNotes`) are never read by any
modelled function and are omitted. -/
structure Position where
  id : String
  symbol : String
  entryPrice : ℚ
  amount : ℚ
  stopLoss : Option ℚ
  takeProfit : Option ℚ
  timestamp : ℤ
  initialRiskPerUnit : Option ℚ
  entryFeePerUnit : Option ℚ
  setupScore : Option ℚ
  marketRegime : Option MarketRegime
  strategyVersion : Option String
deriving DecidableEq, Repr

/-- `BotState` from `src/types.ts`, restricted to the fields read or written
by the modelled engine functions (`isRunning`, `connectivity`, the training
log and similar presentation fields are never touched by them). -/
structure BotState where
  balance : ℚ
  holdings : List (String × ℚ)
  averageEntryPrices : List (String × ℚ)
  activePositions : List Position
  trades : List Trade
  totalPortfolioValue : ℚ
  activeSymbol : String
deriving DecidableEq, Repr

end BotStateModel

section LegacyBotEngineModel

/-!
## `src/services/botEngine.ts`, `executeTrade` and its helpers

`Math.random()`-based trade ids and `Date.now()` enter as explicit
parameters; they are never read back by the modelled logic.
-/

/-- The final portfolio-value recomputation of `executeTrade`. -/
def legacyPortfolioRecalc (state : BotState) (symbol : String) (price : ℚ) : BotState :=
  let holdingsValue := (state.holdings.map fun p =>
    if p.1 = symbol then p.2 * price else 0).sum
  let otherHoldingsValue := (state.holdings.map fun p =>
    if p.1 ≠ symbol then p.2 * jsGet state.averageEntryPrices p.1 else 0).sum
  { state with totalPortfolioValue := state.balance + holdingsValue + otherHoldingsValue }

/-- The FIFO reconciliation of `activePositions` in the SELL branch of
`executeTrade` (the `map`/`filter` with a mutable `remainingToSell`). -/
def legacySellReduce (symbol : String) (stopLoss takeProfit : Option ℚ) :
    List Position → ℚ → List Position
  | [], _ => []
  | pos :: rest, remaining =>
    if pos.symbol ≠ symbol ∨ remaining ≤ 0 then
      pos :: legacySellReduce symbol stopLoss takeProfit rest remaining
    else if pos.amount ≤ remaining then
      legacySellReduce symbol stopLoss takeProfit rest (remaining - pos.amount)
    else
      { pos with
        amount := pos.amount - remaining,
        stopLoss := if stopLoss.isSome then stopLoss else pos.stopLoss,
        takeProfit := if takeProfit.isSome then takeProfit else pos.takeProfit } ::
        legacySellReduce symbol stopLoss takeProfit rest 0

/-- The shared tail of the BUY branch of `executeTrade` once
`tradeAmountUSDT`, `amountCrypto` and `fee` are fixed. -/
def legacyBuyCore (state : BotState) (price : ℚ) (symbol : String)
    (tradeAmountUSDT amountCrypto fee : ℚ) (stopLoss takeProfit : Option ℚ)
    (now : ℤ) (tradeId : String) : BotState :=
  if tradeAmountUSDT ≤ state.balance then
    let currentHolding := jsGet state.holdings symbol
    let currentAvgPrice := jsGet state.averageEntryPrices symbol
    let currentTotalCost := currentHolding * currentAvgPrice
    let newTotalCost := currentTotalCost + tradeAmountUSDT
    let newTotalHolding := currentHolding + amountCrypto
    let trade : Trade :=
      { id := tradeId, symbol := symbol, type := ActionType.BUY, price := price,
        amount := amountCrypto, timestamp := now, pnl := none, fee := fee,
        stopLoss := stopLoss, takeProfit := takeProfit, exitReason := none,
        marketRegime := none, setupScore := none, rMultiple := none,
        strategyVersion := none }
    let newPosition : Position :=
      { id := tradeId, symbol := symbol, entryPrice := price, amount := amountCrypto,
        stopLoss := stopLoss, takeProfit := takeProfit, timestamp := now,
        initialRiskPerUnit := none, entryFeePerUnit := none, setupScore := none,
        marketRegime := none, strategyVersion := none }
    { state with
      averageEntryPrices := setKey state.averageEntryPrices symbol
        (if 0 < newTotalHolding then newTotalCost / newTotalHolding else 0),
      balance := state.balance - tradeAmountUSDT,
      holdings := setKey state.holdings symbol newTotalHolding,
      trades := trade :: state.trades,
      activePositions := state.activePositions ++ [newPosition] }
  else state

/-- The SELL branch of `executeTrade`. -/
def legacySell (state : BotState) (price : ℚ) (symbol : String) (amount : Option ℚ)
    (stopLoss takeProfit : Option ℚ) (exitReason : Option TradeExitReason)
    (now : ℤ) (tradeId : String) : BotState :=
  let currentHolding := jsGet state.holdings symbol
  let sellAmount := amount.getD currentHolding
  let finalSellAmount := min sellAmount currentHolding
  if 0 < finalSellAmount then
    let revenue := finalSellAmount * price
    let feeCost := revenue * TRADING_FEE_RATE
    let netRevenue := revenue - feeCost
    let avgEntryPrice := jsGet state.averageEntryPrices symbol
    let costBasis := finalSellAmount * avgEntryPrice
    let pnl := netRevenue - costBasis
    let newHolding := currentHolding - finalSellAmount
    let holdings1 := setKey state.holdings symbol newHolding
    let dust := newHolding ≤ 0.000001
    let holdings2 := if dust then setKey holdings1 symbol 0 else holdings1
    let avg2 := if dust then setKey state.averageEntryPrices symbol 0
      else state.averageEntryPrices
    let trade : Trade :=
      { id := tradeId, symbol := symbol, type := ActionType.SELL, price := price,
        amount := finalSellAmount, timestamp := now, pnl := some pnl, fee := feeCost,
        stopLoss := stopLoss, takeProfit := takeProfit,
        exitReason := some (exitReason.getD TradeExitReason.SIGNAL),
        marketRegime := none, setupScore := none, rMultiple := none,
        strategyVersion := none }
    { state with
      balance := state.balance + netRevenue,
      holdings := holdings2,
      averageEntryPrices := avg2,
      trades := trade :: state.trades,
      activePositions := legacySellReduce symbol stopLoss takeProfit
        state.activePositions finalSellAmount }
  else state

/-- `executeTrade` (`src/services/botEngine.ts`).  The `if (amount)` check is
JavaScript truthiness: a provided amount of `0` falls back to the default
balance-fraction sizing, whose too-small guard returns without the portfolio
recomputation. -/
def executeTrade (state : BotState) (action : ActionType) (price : ℚ) (symbol : String)
    (amount : Option ℚ) (stopLoss takeProfit : Option ℚ)
    (exitReason : Option TradeExitReason) (now : ℤ) (tradeId : String) : BotState :=
  if action = ActionType.BUY then
    match amount with
    | some a =>
        if a = 0 then
          let tradeAmountUSDT := state.balance * 0.2
          if tradeAmountUSDT ≤ 10 then state
          else
            let fee := tradeAmountUSDT * TRADING_FEE_RATE
            let amountCrypto := (tradeAmountUSDT - fee) / price
            legacyPortfolioRecalc
              (legacyBuyCore state price symbol tradeAmountUSDT amountCrypto fee
                stopLoss takeProfit now tradeId) symbol price
        else
          let amountCrypto := a
          let tradeAmountUSDT := amountCrypto * price / (1 - TRADING_FEE_RATE)
          let fee := tradeAmountUSDT * TRADING_FEE_RATE
          legacyPortfolioRecalc
            (legacyBuyCore state price symbol tradeAmountUSDT amountCrypto fee
              stopLoss takeProfit now tradeId) symbol price
    | none =>
        let tradeAmountUSDT := state.balance * 0.2
        if tradeAmountUSDT ≤ 10 then state
        else
          let fee := tradeAmountUSDT * TRADING_FEE_RATE
          let amountCrypto := (tradeAmountUSDT - fee) / price
          legacyPortfolioRecalc
            (legacyBuyCore state price symbol tradeAmountUSDT amountCrypto fee
              stopLoss takeProfit now tradeId) symbol price
  else if action = ActionType.SELL then
    legacyPortfolioRecalc
      (legacySell state price symbol amount stopLoss takeProfit exitReason now tradeId)
      symbol price
  else
    legacyPortfolioRecalc state symbol price

/-- One recorded `executeTrade` invocation (trade id and clock are the
call-site-supplied effects). -/
structure LegacyCall where
  action : ActionType
  price : ℚ
  amount : Option ℚ
  stopLoss : Option ℚ
  takeProfit : Option ℚ
  exitReason : Option TradeExitReason
  now : ℤ
  tradeId : String
deriving DecidableEq, Repr

/-- A sequence of `executeTrade` calls on one symbol. -/
def runLegacyCalls (state : BotState) (symbol : String) : List LegacyCall → BotState
  | [] => state
  | c :: rest =>
      runLegacyCalls
        (executeTrade state c.action c.price symbol c.amount c.stopLoss c.takeProfit
          c.exitReason c.now c.tradeId) symbol rest

/-- Net bought-minus-sold quantity of a symbol over a trade journal. -/
def buyMinusSell (symbol : String) (trades : List Trade) : ℚ :=
  (trades.map fun t =>
    if t.symbol = symbol then
      if t.type = ActionType.BUY then t.amount
      else if t.type = ActionType.SELL then -t.amount
      else 0
    else 0).sum

/-- Number of SELL trades of a symbol in a trade journal. -/
def sellCount (symbol : String) (trades : List Trade) : ℕ :=
  (trades.filter fun t => t.symbol = symbol ∧ t.type = ActionType.SELL).length

end LegacyBotEngineModel

theorem lookupQ_eq_none_of_hasKey_false (m : List (String × ℚ)) (k : String)
    (h : hasKey m k = false) : lookupQ m k = none := by
  induction m with
  | nil => rfl
  | cons p rest ih =>
    simp only [hasKey, Bool.or_eq_false_iff] at h
    simp only [lookupQ]
    rw [if_neg (by simpa using h.1)]
    exact ih h.2

theorem lookupQ_map_set (m : List (String × ℚ)) (k : String) (v : ℚ)
    (h : hasKey m k = true) :
    lookupQ (m.map fun p => if p.1 = k then (k, v) else p) k = some v := by
  induction m with
  | nil => simp [hasKey] at h
  | cons p rest ih =>
    by_cases hp : p.1 = k
    · simp [lookupQ, hp]
    · simp only [hasKey, Bool.or_eq_true] at h
      rcases h with h | h
      · exact absurd (by simpa using h) hp
      · simp only [List.map_cons, if_neg hp, lookupQ]
        exact ih h

theorem lookupQ_append_self (m : List (String × ℚ)) (k : String) (v : ℚ)
    (h : hasKey m k = false) : lookupQ (m ++ [(k, v)]) k = some v := by
  induction m with
  | nil => simp [lookupQ]
  | cons p rest ih =>
    simp only [hasKey, Bool.or_eq_false_iff] at h
    simp only [List.cons_append, lookupQ]
    rw [if_neg (by simpa using h.1)]
    exact ih h.2

theorem jsGet_setKey_self (m : List (String × ℚ)) (k : String) (v : ℚ) :
    jsGet (setKey m k v) k = v := by
  unfold setKey jsGet
  by_cases h : hasKey m k
  · rw [if_pos h, lookupQ_map_set m k v h]
    rfl
  · rw [if_neg h, lookupQ_append_self m k v (by simpa using h)]
    rfl

theorem legacyPortfolioRecalc_holdings (s : BotState) (sym : String) (p : ℚ) :
    (legacyPortfolioRecalc s sym p).holdings = s.holdings := rfl

theorem legacyPortfolioRecalc_trades (s : BotState) (sym : String) (p : ℚ) :
    (legacyPortfolioRecalc s sym p).trades = s.trades := rfl

theorem buyMinusSell_cons (sym : String) (t : Trade) (ts : List Trade) :
    buyMinusSell sym (t :: ts) =
      (if t.symbol = sym then
        if t.type = ActionType.BUY then t.amount
        else if t.type = ActionType.SELL then -t.amount
        else 0
      else 0) + buyMinusSell sym ts := by
  simp [buyMinusSell]

theorem sellCount_cons (sym : String) (t : Trade) (ts : List Trade) :
    sellCount sym (t :: ts) =
      (if t.symbol = sym ∧ t.type = ActionType.SELL then 1 else 0) + sellCount sym ts := by
  by_cases h : t.symbol = sym ∧ t.type = ActionType.SELL <;>
    simp [sellCount, List.filter, h] <;> omega

theorem legacyBuyCore_facts (s : BotState) (price : ℚ) (sym : String) (t ac fee : ℚ)
    (sl tp : Option ℚ) (now : ℤ) (tid : String)
    (hac : 0 ≤ ac) (h0 : 0 ≤ jsGet s.holdings sym) :
    0 ≤ jsGet (legacyBuyCore s price sym t ac fee sl tp now tid).holdings sym ∧
    jsGet (legacyBuyCore s price sym t ac fee sl tp now tid).holdings sym -
        jsGet s.holdings sym =
      buyMinusSell sym (legacyBuyCore s price sym t ac fee sl tp now tid).trades -
        buyMinusSell sym s.trades ∧
    sellCount sym (legacyBuyCore s price sym t ac fee sl tp now tid).trades =
      sellCount sym s.trades := by
  unfold legacyBuyCore
  dsimp only
  by_cases hb : t ≤ s.balance
  · rw [if_pos hb]
    dsimp only
    rw [jsGet_setKey_self]
    constructor
    · positivity
    constructor
    · rw [buyMinusSell_cons]
      simp
    · rw [sellCount_cons]
      simp
  · rw [if_neg hb]
    refine ⟨h0, by ring, rfl⟩

theorem buyMinusSell_cons_sell (sym : String) (t : Trade) (ts : List Trade)
    (hsym : t.symbol = sym) (htype : t.type = ActionType.SELL) :
    buyMinusSell sym (t :: ts) = -t.amount + buyMinusSell sym ts := by
  rw [buyMinusSell_cons]
  simp [hsym, htype]

theorem sellCount_cons_sell (sym : String) (t : Trade) (ts : List Trade)
    (hsym : t.symbol = sym) (htype : t.type = ActionType.SELL) :
    sellCount sym (t :: ts) = 1 + sellCount sym ts := by
  rw [sellCount_cons]
  simp [hsym, htype]

theorem legacySell_facts (s : BotState) (price : ℚ) (sym : String) (amt : Option ℚ)
    (sl tp : Option ℚ) (er : Option TradeExitReason) (now : ℤ) (tid : String)
    (h0 : 0 ≤ jsGet s.holdings sym) :
    0 ≤ jsGet (legacySell s price sym amt sl tp er now tid).holdings sym ∧
    jsGet (legacySell s price sym amt sl tp er now tid).holdings sym -
        jsGet s.holdings sym ≤
      buyMinusSell sym (legacySell s price sym amt sl tp er now tid).trades -
        buyMinusSell sym s.trades ∧
    buyMinusSell sym (legacySell s price sym amt sl tp er now tid).trades -
        buyMinusSell sym s.trades ≤
      jsGet (legacySell s price sym amt sl tp er now tid).holdings sym -
        jsGet s.holdings sym +
        0.000001 *
          ((sellCount sym (legacySell s price sym amt sl tp er now tid).trades : ℚ) -
            (sellCount sym s.trades : ℚ)) := by
  unfold legacySell
  dsimp only
  set cur := jsGet s.holdings sym with hcur
  set final := min (amt.getD cur) cur with hfinal
  have hfc : final ≤ cur := min_le_right _ _
  by_cases hpos : 0 < final
  · rw [if_pos hpos]
    dsimp only
    rw [buyMinusSell_cons, sellCount_cons]
    dsimp only
    rw [if_pos (rfl : sym = sym),
        if_neg (show ¬(ActionType.SELL = ActionType.BUY) by simp),
        if_pos (rfl : ActionType.SELL = ActionType.SELL),
        if_pos (⟨rfl, rfl⟩ : sym = sym ∧ ActionType.SELL = ActionType.SELL)]
    push_cast
    by_cases hdust : cur - final ≤ 0.000001
    · rw [if_pos hdust, jsGet_setKey_self]
      exact ⟨le_refl 0, by linarith, by linarith⟩
    · rw [if_neg hdust, jsGet_setKey_self]
      exact ⟨by linarith, by linarith, by linarith⟩
  · rw [if_neg hpos]
    exact ⟨h0, by linarith, by push_cast; linarith⟩

theorem executeTrade_step (s : BotState) (sym : String) (act : ActionType) (price : ℚ)
    (amt : Option ℚ) (sl tp : Option ℚ) (er : Option TradeExitReason) (now : ℤ)
    (tid : String) (hp : 0 < price) (ha : ∀ a, amt = some a → 0 ≤ a)
    (h0 : 0 ≤ jsGet s.holdings sym) :
    0 ≤ jsGet (executeTrade s act price sym amt sl tp er now tid).holdings sym ∧
    jsGet (executeTrade s act price sym amt sl tp er now tid).holdings sym -
        jsGet s.holdings sym ≤
      buyMinusSell sym (executeTrade s act price sym amt sl tp er now tid).trades -
        buyMinusSell sym s.trades ∧
    buyMinusSell sym (executeTrade s act price sym amt sl tp er now tid).trades -
        buyMinusSell sym s.trades ≤
      jsGet (executeTrade s act price sym amt sl tp er now tid).holdings sym -
        jsGet s.holdings sym +
        0.000001 *
          ((sellCount sym (executeTrade s act price sym amt sl tp er now tid).trades : ℚ) -
            (sellCount sym s.trades : ℚ)) := by
  have hbuy : ∀ t ac fee : ℚ, 0 ≤ ac →
      0 ≤ jsGet (legacyPortfolioRecalc
          (legacyBuyCore s price sym t ac fee sl tp now tid) sym price).holdings sym ∧
      jsGet (legacyPortfolioRecalc
          (legacyBuyCore s price sym t ac fee sl tp now tid) sym price).holdings sym -
          jsGet s.holdings sym ≤
        buyMinusSell sym (legacyPortfolioRecalc
            (legacyBuyCore s price sym t ac fee sl tp now tid) sym price).trades -
          buyMinusSell sym s.trades ∧
      buyMinusSell sym (legacyPortfolioRecalc
          (legacyBuyCore s price sym t ac fee sl tp now tid) sym price).trades -
          buyMinusSell sym s.trades ≤
        jsGet (legacyPortfolioRecalc
            (legacyBuyCore s price sym t ac fee sl tp now tid) sym price).holdings sym -
          jsGet s.holdings sym +
          0.000001 *
            ((sellCount sym (legacyPortfolioRecalc
                (legacyBuyCore s price sym t ac fee sl tp now tid) sym price).trades : ℚ) -
              (sellCount sym s.trades : ℚ)) := by
    intro t ac fee hac
    rw [legacyPortfolioRecalc_holdings, legacyPortfolioRecalc_trades]
    obtain ⟨f1, f2, f3⟩ := legacyBuyCore_facts s price sym t ac fee sl tp now tid hac h0
    refine ⟨f1, le_of_eq f2, ?_⟩
    rw [f3]
    linarith [f2]
  have hdefault : 0 ≤ (s.balance * 0.2 - s.balance * 0.2 * TRADING_FEE_RATE) / price →
      True := fun _ => trivial
  have hacdef : ¬ s.balance * 0.2 ≤ 10 →
      0 ≤ (s.balance * 0.2 - s.balance * 0.2 * TRADING_FEE_RATE) / price := by
    intro hsmall
    have hlt : (10 : ℚ) < s.balance * 0.2 := by linarith
    have hnum : 0 ≤ s.balance * 0.2 - s.balance * 0.2 * TRADING_FEE_RATE := by
      norm_num [TRADING_FEE_RATE]
      linarith
    positivity
  cases act with
  | HOLD =>
    have hred : executeTrade s ActionType.HOLD price sym amt sl tp er now tid =
        legacyPortfolioRecalc s sym price := rfl
    rw [hred, legacyPortfolioRecalc_holdings, legacyPortfolioRecalc_trades]
    refine ⟨h0, by linarith, by linarith⟩
  | SELL =>
    have hred : executeTrade s ActionType.SELL price sym amt sl tp er now tid =
        legacyPortfolioRecalc (legacySell s price sym amt sl tp er now tid) sym price := rfl
    rw [hred, legacyPortfolioRecalc_holdings, legacyPortfolioRecalc_trades]
    exact legacySell_facts s price sym amt sl tp er now tid h0
  | BUY =>
    cases amt with
    | none =>
      have hred : executeTrade s ActionType.BUY price sym none sl tp er now tid =
          (if s.balance * 0.2 ≤ 10 then s else
            legacyPortfolioRecalc (legacyBuyCore s price sym (s.balance * 0.2)
              ((s.balance * 0.2 - s.balance * 0.2 * TRADING_FEE_RATE) / price)
              (s.balance * 0.2 * TRADING_FEE_RATE) sl tp now tid) sym price) := rfl
      rw [hred]
      by_cases hsmall : s.balance * 0.2 ≤ 10
      · rw [if_pos hsmall]
        refine ⟨h0, by linarith, by linarith⟩
      · rw [if_neg hsmall]
        exact hbuy _ _ _ (hacdef hsmall)
    | some a =>
      have ha' : 0 ≤ a := ha a rfl
      by_cases haz : a = 0
      · have hred : executeTrade s ActionType.BUY price sym (some a) sl tp er now tid =
            (if s.balance * 0.2 ≤ 10 then s else
              legacyPortfolioRecalc (legacyBuyCore s price sym (s.balance * 0.2)
                ((s.balance * 0.2 - s.balance * 0.2 * TRADING_FEE_RATE) / price)
                (s.balance * 0.2 * TRADING_FEE_RATE) sl tp now tid) sym price) := by
          unfold executeTrade
          rw [if_pos rfl]
          dsimp only
          rw [if_pos haz]
        rw [hred]
        by_cases hsmall : s.balance * 0.2 ≤ 10
        · rw [if_pos hsmall]
          refine ⟨h0, by linarith, by linarith⟩
        · rw [if_neg hsmall]
          exact hbuy _ _ _ (hacdef hsmall)
      · have hred : executeTrade s ActionType.BUY price sym (some a) sl tp er now tid =
            legacyPortfolioRecalc (legacyBuyCore s price sym
              (a * price / (1 - TRADING_FEE_RATE)) a
              (a * price / (1 - TRADING_FEE_RATE) * TRADING_FEE_RATE) sl tp now tid)
              sym price := by
          unfold executeTrade
          rw [if_pos rfl]
          dsimp only
          rw [if_neg haz]
        rw [hred]
        exact hbuy _ _ _ ha'

theorem executeTrade_sell_clamps (s : BotState) (sym : String) (price a : ℚ)
    (sl tp : Option ℚ) (er : Option TradeExitReason) (now : ℤ) (tid : String)
    (hpos : 0 < min a (jsGet s.holdings sym)) :
    ((executeTrade s ActionType.SELL price sym (some a) sl tp er now tid).trades.head?).map
      (fun t => t.amount) = some (min a (jsGet s.holdings sym)) := by
  have hred : executeTrade s ActionType.SELL price sym (some a) sl tp er now tid =
      legacyPortfolioRecalc (legacySell s price sym (some a) sl tp er now tid)
        sym price := rfl
  rw [hred, legacyPortfolioRecalc_trades]
  unfold legacySell
  dsimp only
  simp only [Option.getD_some]
  rw [if_pos hpos]
  rfl

/-- C5 (amended): over any sequence of `executeTrade` calls on a symbol with
positive prices and non-negative requested amounts, the symbol's holdings
stay non-negative and track the recorded net bought-minus-sold quantity up to
at most 1e-6 of discarded dust per SELL (the `<= 0.000001` zeroing); and a
SELL request is clamped to the current holding. -/
theorem executeTrade_holdings_conservation
    (s0 : BotState) (sym : String) (calls : List LegacyCall)
    (h0 : 0 ≤ jsGet s0.holdings sym)
    (hcalls : ∀ c ∈ calls, 0 < c.price ∧ ∀ a, c.amount = some a → 0 ≤ a) :
    0 ≤ jsGet (runLegacyCalls s0 sym calls).holdings sym ∧
    jsGet (runLegacyCalls s0 sym calls).holdings sym - jsGet s0.holdings sym ≤
      buyMinusSell sym (runLegacyCalls s0 sym calls).trades -
        buyMinusSell sym s0.trades ∧
    buyMinusSell sym (runLegacyCalls s0 sym calls).trades -
        buyMinusSell sym s0.trades ≤
      jsGet (runLegacyCalls s0 sym calls).holdings sym - jsGet s0.holdings sym +
        0.000001 * ((sellCount sym (runLegacyCalls s0 sym calls).trades : ℚ) -
          (sellCount sym s0.trades : ℚ)) ∧
    (∀ (s : BotState) (price a : ℚ) (sl tp : Option ℚ) (er : Option TradeExitReason)
        (now : ℤ) (tid : String),
      0 < min a (jsGet s.holdings sym) →
      ((executeTrade s ActionType.SELL price sym (some a) sl tp er now tid).trades.head?).map
        (fun t => t.amount) = some (min a (jsGet s.holdings sym))) := by
  induction calls generalizing s0 with
  | nil =>
    simp only [runLegacyCalls]
    refine ⟨h0, by linarith, by linarith, ?_⟩
    intro s price a sl tp er now tid hpos
    exact executeTrade_sell_clamps s sym price a sl tp er now tid hpos
  | cons c rest ih =>
    obtain ⟨hp, ha⟩ := hcalls c (List.mem_cons_self c rest)
    have hrest : ∀ x ∈ rest, 0 < x.price ∧ ∀ a, x.amount = some a → 0 ≤ a :=
      fun x hx => hcalls x (List.mem_cons_of_mem c hx)
    obtain ⟨a1, b1, c1⟩ := executeTrade_step s0 sym c.action c.price c.amount
      c.stopLoss c.takeProfit c.exitReason c.now c.tradeId hp ha h0
    have hrun : runLegacyCalls s0 sym (c :: rest) =
        runLegacyCalls (executeTrade s0 c.action c.price sym c.amount c.stopLoss
          c.takeProfit c.exitReason c.now c.tradeId) sym rest := rfl
    rw [hrun]
    obtain ⟨A, B, C, D⟩ := ih _ a1 hrest
    exact ⟨A, by linarith, by linarith, D⟩

/-- Initial paper-trading state for the dust-zeroing example. -/
def exLegacyState : BotState :=
  { balance := 1000, holdings := [], averageEntryPrices := [], activePositions := [],
    trades := [], totalPortfolioValue := 1000, activeSymbol := "BTC-USDC" }

/-- A buy of 5e-7 then a sell of 4e-7, both at price 1. -/
def exLegacyCalls : List LegacyCall :=
  [{ action := ActionType.BUY, price := 1, amount := some 0.0000005, stopLoss := none,
     takeProfit := none, exitReason := none, now := 0, tradeId := "b1" },
   { action := ActionType.SELL, price := 1, amount := some 0.0000004, stopLoss := none,
     takeProfit := none, exitReason := none, now := 1, tradeId := "s1" }]

/-- C5 counterexample: after buying 5e-7 and selling 4e-7 of a symbol, the
recorded net bought-minus-sold quantity is 1e-7, but the holdings are exactly
0 (the `<= 0.000001` dust zeroing), so the claimed equality
`holdings = Σ buys - Σ sells` is false at this input. -/
theorem executeTrade_holdings_equation_cex :
    jsGet (runLegacyCalls exLegacyState "BTC-USDC" exLegacyCalls).holdings "BTC-USDC"
        = 0 ∧
    buyMinusSell "BTC-USDC" (runLegacyCalls exLegacyState "BTC-USDC" exLegacyCalls).trades
        = 0.0000001 ∧
    jsGet (runLegacyCalls exLegacyState "BTC-USDC" exLegacyCalls).holdings "BTC-USDC" ≠
      buyMinusSell "BTC-USDC"
        (runLegacyCalls exLegacyState "BTC-USDC" exLegacyCalls).trades := by
  refine ⟨?_, ?_, ?_⟩ <;>
    norm_num [runLegacyCalls, executeTrade, legacySell, legacyBuyCore,
      legacyPortfolioRecalc, legacySellReduce, setKey, hasKey, lookupQ, jsGet,
      buyMinusSell, sellCount, TRADING_FEE_RATE, exLegacyState, exLegacyCalls,
      show (ActionType.SELL = ActionType.BUY) = False by simp,
      show (ActionType.BUY = ActionType.SELL) = False by simp]

/-- Witness for C5: the conservation bounds instantiated on the dust example. -/
theorem executeTrade_holdings_conservation_witness :
    0 ≤ jsGet (runLegacyCalls exLegacyState "BTC-USDC" exLegacyCalls).holdings
        "BTC-USDC" ∧
    jsGet (runLegacyCalls exLegacyState "BTC-USDC" exLegacyCalls).holdings "BTC-USDC" -
        jsGet exLegacyState.holdings "BTC-USDC" ≤
      buyMinusSell "BTC-USDC"
          (runLegacyCalls exLegacyState "BTC-USDC" exLegacyCalls).trades -
        buyMinusSell "BTC-USDC" exLegacyState.trades :=
  ⟨(executeTrade_holdings_conservation exLegacyState "BTC-USDC" exLegacyCalls
      (by norm_num [exLegacyState, jsGet, lookupQ])
      (by
        intro c hc
        fin_cases hc <;> constructor <;> norm_num [exLegacyCalls] <;>
          (intro a ha; injection ha with h; omega))).1,
   (executeTrade_holdings_conservation exLegacyState "BTC-USDC" exLegacyCalls
      (by norm_num [exLegacyState, jsGet, lookupQ])
      (by
        intro c hc
        fin_cases hc <;> constructor <;> norm_num [exLegacyCalls] <;>
          (intro a ha; injection ha with h; omega))).2.1⟩

section ExecutionSimulatorModel

/-!
## `src/services/engine/executionSimulator.ts` (source file with unknown name)

The FNV-style `hashToUnit` noise is modelled exactly over the integers:
JavaScript 32-bit coercions (`^`, `<<`) are `jsToInt32`/`jsXor`/`jsShl`, the
inter-iteration accumulator lives in exact integer arithmetic (every
intermediate fits far below 2^53, so IEEE addition is exact), and the final
`%` is JavaScript's truncated remainder.
-/

/-- ECMAScript `ToInt32`. -/
def jsToInt32 (x : ℤ) : ℤ := (x + 2 ^ 31) % 2 ^ 32 - 2 ^ 31

/-- The unsigned 32-bit image of an integer. -/
def toUInt32 (x : ℤ) : ℕ := (x % 2 ^ 32).toNat

/-- JavaScript `a ^ b` (32-bit xor after `ToInt32`). -/
def jsXor (a b : ℤ) : ℤ := jsToInt32 (Int.ofNat (toUInt32 a ^^^ toUInt32 b))

/-- JavaScript `a << n` for `0 ≤ n < 32`. -/
def jsShl (a : ℤ) (n : ℕ) : ℤ := jsToInt32 (jsToInt32 a * 2 ^ n)

/-- `hashToUnit`: FNV-style string hash mapped into `[0, 1)` in steps of
1/10000 (`Math.abs(hash % 10000) / 10000`). -/
def hashToUnit (input : String) : ℚ :=
  let hash := input.data.foldl
    (fun hash c =>
      let h := jsXor hash (Int.ofNat c.toNat)
      h + (jsShl h 1 + jsShl h 4 + jsShl h 7 + jsShl h 8 + jsShl h 24))
    2166136261
  ((Int.tmod hash 10000).natAbs : ℚ) / 10000

/-- String form of an `ActionType`, as interpolated into template literals. -/
def ActionType.str : ActionType → String
  | ActionType.BUY => "BUY"
  | ActionType.SELL => "SELL"
  | ActionType.HOLD => "HOLD"

/-- `calcSpread`. -/
def calcSpread (price atr : ℚ) : ℚ :=
  let atrPct := atr / max price 1
  let spreadPct := 0.00015 + min 0.001 (atrPct * 0.18)
  price * spreadPct

/-- `calcSlippage`. -/
def calcSlippage (price atr : ℚ) (symbol : String) (timestamp : ℤ)
    (side : ActionType) : ℚ :=
  let atrPct := atr / max price 1
  let noise := hashToUnit (symbol ++ ":" ++ toString timestamp ++ ":" ++ side.str)
  let slipPct := 0.00005 + atrPct * 0.08 + noise * 0.0002
  price * slipPct

/-- `ExecutionSimulation` from `src/types.ts` (`reason` is `ENTRY` for entry
fills, modelled as `none`). -/
structure ExecutionSimulation where
  entryPrice : ℚ
  exitPrice : ℚ
  pnl : ℚ
  rMultiple : ℚ
  reason : Option TradeExitReason
  spread : ℚ
  slippage : ℚ
  fees : ℚ
deriving DecidableEq, Repr

/-- `simulateEntryExecution` (`feeRate ?? TRADING_FEE_RATE` is nullish
coalescing on the optional input field). -/
def simulateEntryExecution (symbol : String) (action : ActionType)
    (marketPrice amount atr : ℚ) (timestamp : ℤ) (feeRate : Option ℚ) :
    ExecutionSimulation :=
  let spread := calcSpread marketPrice atr
  let slippage := calcSlippage marketPrice atr symbol timestamp action
  let fr := feeRate.getD TRADING_FEE_RATE
  let directionalImpact : ℚ := if action = ActionType.BUY then 1 else -1
  let fillPrice := marketPrice + directionalImpact * (spread / 2 + slippage)
  let fees := max 0 (fillPrice * amount * fr)
  { entryPrice := roundTo 6 fillPrice, exitPrice := roundTo 6 fillPrice, pnl := 0,
    rMultiple := 0, reason := none, spread := roundTo 6 spread,
    slippage := roundTo 6 slippage, fees := roundTo 6 fees }

/-- `simulateExitExecution`. -/
def simulateExitExecution (symbol : String) (marketPrice entryPrice amount atr : ℚ)
    (timestamp : ℤ) (reason : TradeExitReason) (initialRiskPerUnit entryFee feeRate :
    Option ℚ) : ExecutionSimulation :=
  let spread := calcSpread marketPrice atr
  let slippage := calcSlippage marketPrice atr symbol timestamp ActionType.SELL
  let fr := feeRate.getD TRADING_FEE_RATE
  let fillPrice := marketPrice - (spread / 2 + slippage)
  let exitFee := max 0 (fillPrice * amount * fr)
  let entryFee' := entryFee.getD (max 0 (entryPrice * amount * fr))
  let grossPnl := (fillPrice - entryPrice) * amount
  let pnl := grossPnl - exitFee - entryFee'
  let totalRisk := max (jsOrQ initialRiskPerUnit 0 * amount) 0.00000001
  let rMultiple := pnl / totalRisk
  { entryPrice := roundTo 6 entryPrice, exitPrice := roundTo 6 fillPrice,
    pnl := roundTo 6 pnl, rMultiple := roundTo 4 rMultiple, reason := some reason,
    spread := roundTo 6 spread, slippage := roundTo 6 slippage,
    fees := roundTo 6 (entryFee' + exitFee) }

end ExecutionSimulatorModel

section TradeHistoryModel

/-!
## `src/services/storage/tradeHistoryService.ts` (source file with unknown name)

Both backends (JSONL files under Node, localStorage in the browser) append
records at the end of their journals; the store is modelled as the record
lists themselves.  Decision records are appended by the engine cycle, not by
`confirmPendingTrade`, and are not needed here.
-/

/-- Order status from the `OrderRecord` interface. -/
inductive OrderStatus where
  | ACCEPTED
  | SKIPPED
  | REJECTED
  | FILLED
deriving DecidableEq, Repr

/-- `OrderRecord`. -/
structure OrderRecord where
  orderId : String
  decisionId : String
  idempotencyKey : String
  ts : ℤ
  symbol : String
  side : ActionType
  qty : ℚ
  requestedPrice : ℚ
  status : OrderStatus
  reason : Option String
deriving DecidableEq, Repr

/-- Fill status from the `FillRecord` interface. -/
inductive FillStatus where
  | FILLED
  | FAILED
deriving DecidableEq, Repr

/-- `FillRecord`. -/
structure FillRecord where
  fillId : String
  orderId : String
  ts : ℤ
  symbol : String
  qty : ℚ
  avgPrice : ℚ
  fees : ℚ
  status : FillStatus
deriving DecidableEq, Repr

/-- `PositionSnapshotRecord`. -/
structure PositionSnapshotRecord where
  ts : ℤ
  symbol : String
  balance : ℚ
  positionSize : ℚ
  avgEntryPrice : ℚ
  totalPortfolioValue : ℚ
deriving DecidableEq, Repr

/-- The journals owned by `TradeHistoryService`. -/
structure TradeHistoryStore where
  orders : List OrderRecord
  fills : List FillRecord
  snapshots : List PositionSnapshotRecord
deriving DecidableEq, Repr

/-- `TradeHistoryService.hasOrderForIdempotencyKey`: a non-SKIPPED order with
the key exists. -/
def TradeHistoryService.hasOrderForIdempotencyKey (store : TradeHistoryStore)
    (key : String) : Bool :=
  store.orders.any fun order =>
    order.idempotencyKey == key && !(order.status == OrderStatus.SKIPPED)

/-- `TradeHistoryService.recordOrder` (append-only). -/
def TradeHistoryService.recordOrder (store : TradeHistoryStore) (order : OrderRecord) :
    TradeHistoryStore :=
  { store with orders := store.orders ++ [order] }

/-- `TradeHistoryService.recordFill` (append-only). -/
def TradeHistoryService.recordFill (store : TradeHistoryStore) (fill : FillRecord) :
    TradeHistoryStore :=
  { store with fills := store.fills ++ [fill] }

/-- `TradeHistoryService.recordPositionSnapshot` (append-only). -/
def TradeHistoryService.recordPositionSnapshot (store : TradeHistoryStore)
    (snapshot : PositionSnapshotRecord) : TradeHistoryStore :=
  { store with snapshots := store.snapshots ++ [snapshot] }

end TradeHistoryModel

section PositionLedgerModel

/-!
## The bot-engine position ledger (source file with unknown name; the module
also holding `runBotEngineCycle` and `confirmPendingTrade`)

`Date.now()` and the module-level `tradeSequence` id counter enter as
explicit `now`/`tradeId` parameters.  The metadata captured by
`consumePositions` keeps the fields later read into SELL trade records; the
purely textual `entryReason`/`indicatorsSnapshot`/`aiNotes` carriers are
omitted as before.
-/

/-- `IndicatorSnapshot` from `src/types.ts`. -/
structure IndicatorSnapshot where
  emaShort : ℚ
  emaLong : ℚ
  rsi : ℚ
  atr : ℚ
  momentum : ℚ
  volumeRatio : ℚ
deriving DecidableEq, Repr

/-- The `metadata` accumulator of `ConsumePositionsResult`. -/
structure ConsumeMetadata where
  setupScore : Option ℚ
  marketRegime : Option MarketRegime
  strategyVersion : Option String
  stopLoss : Option ℚ
  takeProfit : Option ℚ
deriving DecidableEq, Repr

/-- The empty metadata object. -/
def ConsumeMetadata.empty : ConsumeMetadata :=
  { setupScore := none, marketRegime := none, strategyVersion := none,
    stopLoss := none, takeProfit := none }

/-- The first-consumed-lot metadata capture of the `consumePositions` loop
(each field is written only while still unset; `stopLoss`/`takeProfit` may be
written as `undefined` and then remain overwritable). -/
def ConsumeMetadata.update (m : ConsumeMetadata) (position : Position) :
    ConsumeMetadata :=
  { marketRegime := if m.marketRegime = none then position.marketRegime
      else m.marketRegime,
    strategyVersion := if m.strategyVersion = none then position.strategyVersion
      else m.strategyVersion,
    setupScore := if m.setupScore = none ∧ position.setupScore.isSome
      then position.setupScore else m.setupScore,
    stopLoss := if m.stopLoss = none then position.stopLoss else m.stopLoss,
    takeProfit := if m.takeProfit = none then position.takeProfit else m.takeProfit }

/-- The mutable loop state of `consumePositions`. -/
structure ConsumeAcc where
  remaining : ℚ
  weightedEntryPrice : ℚ
  weightedRisk : ℚ
  weightedEntryFee : ℚ
  consumedAmount : ℚ
  metadata : ConsumeMetadata
deriving DecidableEq, Repr

/-- `targetPositionId && position.id !== targetPositionId` (string
truthiness: an empty target id is falsy). -/
def targetSkips (targetPositionId : Option String) (posId : String) : Bool :=
  match targetPositionId with
  | some t => !(t == "") && !(posId == t)
  | none => false

/-- The `for` loop of `consumePositions`: walks the lots in insertion order,
returning the surviving lot list and the final accumulator. -/
def consumeGo (symbol : String) (targetPositionId : Option String) :
    List Position → ConsumeAcc → List Position × ConsumeAcc
  | [], acc => ([], acc)
  | position :: rest, acc =>
    if position.symbol ≠ symbol then
      let r := consumeGo symbol targetPositionId rest acc
      (position :: r.1, r.2)
    else if targetSkips targetPositionId position.id then
      let r := consumeGo symbol targetPositionId rest acc
      (position :: r.1, r.2)
    else if acc.remaining ≤ 0 then
      let r := consumeGo symbol targetPositionId rest acc
      (position :: r.1, r.2)
    else
      let consume := min position.amount acc.remaining
      let keep := position.amount - consume
      let acc' : ConsumeAcc :=
        { remaining := acc.remaining - consume,
          weightedEntryPrice := acc.weightedEntryPrice + position.entryPrice * consume,
          weightedRisk := acc.weightedRisk +
            jsOrQ position.initialRiskPerUnit
              (max (position.entryPrice - jsOrQ position.stopLoss
                (position.entryPrice * 0.995)) 0.00000001) * consume,
          weightedEntryFee := acc.weightedEntryFee +
            jsOrQ position.entryFeePerUnit 0 * consume,
          consumedAmount := acc.consumedAmount + consume,
          metadata := acc.metadata.update position }
      let r := consumeGo symbol targetPositionId rest acc'
      if 0 < keep then ({ position with amount := roundTo 8 keep } :: r.1, r.2)
      else r

/-- `ConsumePositionsResult`. -/
structure ConsumePositionsResult where
  positions : List Position
  consumedAmount : ℚ
  weightedEntryPrice : ℚ
  weightedRiskPerUnit : ℚ
  weightedEntryFeePerUnit : ℚ
  metadata : ConsumeMetadata
deriving DecidableEq, Repr

/-- `consumePositions`. -/
def consumePositions (state : BotState) (symbol : String) (amountRequested : ℚ)
    (targetPositionId : Option String) : ConsumePositionsResult :=
  let r := consumeGo symbol targetPositionId state.activePositions
    { remaining := amountRequested, weightedEntryPrice := 0, weightedRisk := 0,
      weightedEntryFee := 0, consumedAmount := 0, metadata := ConsumeMetadata.empty }
  if r.2.consumedAmount ≤ 0 then
    { positions := state.activePositions, consumedAmount := 0,
      weightedEntryPrice := 0, weightedRiskPerUnit := 0,
      weightedEntryFeePerUnit := 0, metadata := r.2.metadata }
  else
    { positions := r.1,
      consumedAmount := roundTo 8 r.2.consumedAmount,
      weightedEntryPrice := r.2.weightedEntryPrice / r.2.consumedAmount,
      weightedRiskPerUnit := r.2.weightedRisk / r.2.consumedAmount,
      weightedEntryFeePerUnit := r.2.weightedEntryFee / r.2.consumedAmount,
      metadata := r.2.metadata }

/-- `recalculateSymbolState`: holdings and average entry price recomputed
from the symbol's remaining lots. -/
def recalculateSymbolState (state : BotState) (symbol : String) : BotState :=
  let symbolPositions := state.activePositions.filter fun p => p.symbol = symbol
  let totalAmount := (symbolPositions.map fun p => p.amount).sum
  let totalCost := (symbolPositions.map fun p => p.entryPrice * p.amount).sum
  { state with
    holdings := setKey state.holdings symbol (roundTo 8 (max totalAmount 0)),
    averageEntryPrices := setKey state.averageEntryPrices symbol
      (if 0 < totalAmount then roundTo 6 (totalCost / totalAmount) else 0) }

/-- `recalculatePortfolioValue` (non-positive holdings entries are skipped). -/
def recalculatePortfolioValue (state : BotState) (symbol : String)
    (currentPrice : ℚ) : BotState :=
  let holdingsValue := (state.holdings.map fun p =>
    if p.2 ≤ 0 then 0
    else if p.1 = symbol then p.2 * currentPrice
    else p.2 * jsGet state.averageEntryPrices p.1).sum
  { state with totalPortfolioValue := roundTo 4 (state.balance + holdingsValue) }

/-- `recordTrade` (the `appendTrade` persistence side effect has no effect on
the returned state). -/
def recordTrade (state : BotState) (trade : Trade) : BotState :=
  { state with trades := (trade :: state.trades).take 2000 }

/-- `PendingTrade` from `src/types.ts` (informational text fields omitted as
before). -/
structure PendingTrade where
  symbol : String
  action : ActionType
  price : ℚ
  amount : ℚ
  totalValue : ℚ
  fee : ℚ
  stopLoss : Option ℚ
  takeProfit : Option ℚ
  marketRegime : Option MarketRegime
  setupScore : Option ℚ
  indicatorsSnapshot : Option IndicatorSnapshot
  strategyVersion : Option String
  simulation : Option ExecutionSimulation
  decisionId : Option String
  idempotencyKey : Option String
deriving DecidableEq, Repr

/-- `executeBuyTrade`. -/
def executeBuyTrade (state : BotState) (pending : PendingTrade) (atr : ℚ)
    (now : ℤ) (tradeId : String) : BotState :=
  let simulation :=
    match pending.simulation with
    | some s => s
    | none => simulateEntryExecution pending.symbol ActionType.BUY pending.price
        pending.amount atr now (some TRADING_FEE_RATE)
  let totalCost := simulation.entryPrice * pending.amount + simulation.fees
  if state.balance < totalCost then state
  else
    let nextStateBase := { state with balance := roundTo 6 (state.balance - totalCost) }
    let trade : Trade :=
      { id := tradeId, symbol := pending.symbol, type := ActionType.BUY,
        price := simulation.entryPrice, amount := pending.amount, timestamp := now,
        pnl := none, fee := simulation.fees, stopLoss := pending.stopLoss,
        takeProfit := pending.takeProfit, exitReason := none,
        marketRegime := pending.marketRegime, setupScore := pending.setupScore,
        rMultiple := none, strategyVersion := pending.strategyVersion }
    let position : Position :=
      { id := tradeId, symbol := pending.symbol, entryPrice := simulation.entryPrice,
        amount := pending.amount, stopLoss := pending.stopLoss,
        takeProfit := pending.takeProfit, timestamp := now,
        initialRiskPerUnit := some (max (simulation.entryPrice -
          jsOrQ pending.stopLoss (simulation.entryPrice * 0.995)) 0.00000001),
        entryFeePerUnit := some (simulation.fees / max pending.amount 0.00000001),
        setupScore := pending.setupScore, marketRegime := pending.marketRegime,
        strategyVersion := pending.strategyVersion }
    let withTrade := recordTrade nextStateBase trade
    let withPosition :=
      { withTrade with activePositions := withTrade.activePositions ++ [position] }
    recalculateSymbolState withPosition pending.symbol

/-- `executeSellTrade`.  When the caller supplies `fallbackMetadata` it is an
object literal carrying every key (possibly with `undefined` values), so the
spread `{...consumed.metadata, ...fallbackMetadata}` replaces the consumed
metadata wholesale; with no fallback the consumed metadata stands. -/
def executeSellTrade (state : BotState) (symbol : String) (amount marketPrice atr : ℚ)
    (exitReason : TradeExitReason) (targetPositionId : Option String)
    (fallbackMetadata : Option ConsumeMetadata) (now : ℤ) (tradeId : String) :
    BotState :=
  let consumed := consumePositions state symbol amount targetPositionId
  if consumed.consumedAmount ≤ 0 then state
  else
    let metadata := fallbackMetadata.getD consumed.metadata
    let entryPrice := consumed.weightedEntryPrice
    let entryFee := consumed.weightedEntryFeePerUnit * consumed.consumedAmount
    let simulation := simulateExitExecution symbol marketPrice entryPrice
      consumed.consumedAmount atr now exitReason (some consumed.weightedRiskPerUnit)
      (some entryFee) (some TRADING_FEE_RATE)
    let exitFee := simulation.exitPrice * consumed.consumedAmount * TRADING_FEE_RATE
    let netRevenue := simulation.exitPrice * consumed.consumedAmount - exitFee
    let costBasis := entryPrice * consumed.consumedAmount + entryFee
    let pnl := netRevenue - costBasis
    let nextStateBase :=
      { state with
        balance := roundTo 6 (state.balance + netRevenue),
        activePositions := consumed.positions }
    let trade : Trade :=
      { id := tradeId, symbol := symbol, type := ActionType.SELL,
        price := simulation.exitPrice, amount := consumed.consumedAmount,
        timestamp := now, pnl := some (roundTo 6 pnl), fee := exitFee,
        stopLoss := metadata.stopLoss, takeProfit := metadata.takeProfit,
        exitReason := some exitReason, marketRegime := metadata.marketRegime,
        setupScore := metadata.setupScore, rMultiple := some simulation.rMultiple,
        strategyVersion := metadata.strategyVersion }
    let withTrade := recordTrade nextStateBase trade
    recalculateSymbolState withTrade symbol

/-- The order id built at the top of `confirmPendingTrade`. -/
def confirmOrderId (pending : PendingTrade) (now : ℤ) : String :=
  pending.symbol ++ "-" ++ pending.action.str ++ "-" ++ toString now

/-- The decision id used by `confirmPendingTrade`. -/
def confirmDecisionId (pending : PendingTrade) (now : ℤ) : String :=
  jsOrStr pending.decisionId
    (pending.symbol ++ "-" ++ toString now ++ "-" ++ pending.action.str)

/-- The idempotency key used by `confirmPendingTrade`. -/
def confirmIdempotencyKey (pending : PendingTrade) (now : ℤ) : String :=
  jsOrStr pending.idempotencyKey
    (pending.symbol ++ ":" ++ confirmDecisionId pending now ++ ":" ++ pending.action.str)

/-- `confirmPendingTrade`, paired with its `TradeHistoryService` effects. -/
def confirmPendingTrade (state : BotState) (pending : PendingTrade)
    (exitReason : TradeExitReason) (hist : TradeHistoryStore) (now : ℤ)
    (tradeId : String) : BotState × TradeHistoryStore :=
  let atr := jsOrQ (pending.indicatorsSnapshot.map fun s => s.atr)
    (max (pending.price * 0.003) 0.00000001)
  let orderId := confirmOrderId pending now
  let decisionId := confirmDecisionId pending now
  let idempotencyKey := confirmIdempotencyKey pending now
  let side := if pending.action = ActionType.BUY then ActionType.BUY else ActionType.SELL
  if TradeHistoryService.hasOrderForIdempotencyKey hist idempotencyKey then
    (state,
     TradeHistoryService.recordOrder hist
       { orderId := orderId, decisionId := decisionId,
         idempotencyKey := idempotencyKey, ts := now, symbol := pending.symbol,
         side := side, qty := pending.amount, requestedPrice := pending.price,
         status := OrderStatus.SKIPPED,
         reason := some "Duplicate idempotency key on restart" })
  else
    let hist1 := TradeHistoryService.recordOrder hist
      { orderId := orderId, decisionId := decisionId,
        idempotencyKey := idempotencyKey, ts := now, symbol := pending.symbol,
        side := side, qty := pending.amount, requestedPrice := pending.price,
        status := OrderStatus.ACCEPTED, reason := none }
    let nextState :=
      if pending.action = ActionType.BUY then
        executeBuyTrade state pending atr now tradeId
      else
        executeSellTrade state pending.symbol pending.amount pending.price atr
          exitReason none
          (some { setupScore := pending.setupScore,
                  marketRegime := pending.marketRegime,
                  strategyVersion := pending.strategyVersion,
                  stopLoss := pending.stopLoss, takeProfit := pending.takeProfit })
          now tradeId
    let nextState2 := recalculatePortfolioValue nextState pending.symbol pending.price
    let hist2 := TradeHistoryService.recordFill hist1
      { fillId := orderId ++ "-fill", orderId := orderId, ts := now,
        symbol := pending.symbol, qty := pending.amount, avgPrice := pending.price,
        fees := pending.fee, status := FillStatus.FILLED }
    let hist3 := TradeHistoryService.recordPositionSnapshot hist2
      { ts := now, symbol := pending.symbol, balance := nextState2.balance,
        positionSize := jsGet nextState2.holdings pending.symbol,
        avgEntryPrice := jsGet nextState2.averageEntryPrices pending.symbol,
        totalPortfolioValue := nextState2.totalPortfolioValue }
    (nextState2, hist3)

end PositionLedgerModel

/-- C1: when the history store already holds a non-SKIPPED order for the
pending trade's idempotency key, `confirmPendingTrade` records exactly one
SKIPPED order and returns the input bot state unchanged — balance, holdings,
average entry prices, active positions and trades are identical, and no fill
or snapshot is written. -/
theorem confirmPendingTrade_duplicate_skips
    (state : BotState) (pending : PendingTrade) (er : TradeExitReason)
    (hist : TradeHistoryStore) (now : ℤ) (tid : String)
    (hdup : TradeHistoryService.hasOrderForIdempotencyKey hist
      (confirmIdempotencyKey pending now) = true) :
    (confirmPendingTrade state pending er hist now tid).1.balance = state.balance ∧
    (confirmPendingTrade state pending er hist now tid).1.holdings = state.holdings ∧
    (confirmPendingTrade state pending er hist now tid).1.averageEntryPrices =
      state.averageEntryPrices ∧
    (confirmPendingTrade state pending er hist now tid).1.activePositions =
      state.activePositions ∧
    (confirmPendingTrade state pending er hist now tid).1.trades = state.trades ∧
    ((confirmPendingTrade state pending er hist now tid).2.orders.map fun o => o.status)
      = (hist.orders.map fun o => o.status) ++ [OrderStatus.SKIPPED] ∧
    (confirmPendingTrade state pending er hist now tid).2.fills = hist.fills ∧
    (confirmPendingTrade state pending er hist now tid).2.snapshots = hist.snapshots := by
  unfold confirmPendingTrade
  dsimp only
  rw [if_pos hdup]
  refine ⟨rfl, rfl, rfl, rfl, rfl, ?_, rfl, rfl⟩
  simp [TradeHistoryService.recordOrder]

/-- A pending BUY whose idempotency key is `"k"`. -/
def exPending : PendingTrade :=
  { symbol := "BTC-USDC", action := ActionType.BUY, price := 100, amount := 1,
    totalValue := 100, fee := 0.1, stopLoss := none, takeProfit := none,
    marketRegime := none, setupScore := none, indicatorsSnapshot := none,
    strategyVersion := none, simulation := none, decisionId := none,
    idempotencyKey := some "k" }

/-- A history store already holding an ACCEPTED order under key `"k"`. -/
def exHist : TradeHistoryStore :=
  { orders := [{ orderId := "o1", decisionId := "d1", idempotencyKey := "k",
                 ts := 0, symbol := "BTC-USDC", side := ActionType.BUY, qty := 1,
                 requestedPrice := 100, status := OrderStatus.ACCEPTED,
                 reason := none }],
    fills := [], snapshots := [] }

/-- Witness for C1: replaying the pending trade under the duplicate key `"k"`
leaves the balance and trades untouched and appends one SKIPPED order. -/
theorem confirmPendingTrade_duplicate_skips_witness :
    (confirmPendingTrade exLegacyState exPending TradeExitReason.MANUAL exHist 5
        "t1").1.balance = exLegacyState.balance ∧
    (confirmPendingTrade exLegacyState exPending TradeExitReason.MANUAL exHist 5
        "t1").1.trades = exLegacyState.trades ∧
    ((confirmPendingTrade exLegacyState exPending TradeExitReason.MANUAL exHist 5
        "t1").2.orders.map fun o => o.status)
      = (exHist.orders.map fun o => o.status) ++ [OrderStatus.SKIPPED] := by
  have h := confirmPendingTrade_duplicate_skips exLegacyState exPending
    TradeExitReason.MANUAL exHist 5 "t1" (by decide)
  exact ⟨h.1, h.2.2.2.2.1, h.2.2.2.2.2.1⟩

section FixedPointLemmas

/-- A rational that is an exact multiple of `1e-8` (the granularity at which
the ledger's `round(..., 8)` is the identity). -/
def is8dp (x : ℚ) : Prop := ∃ k : ℤ, x * 100000000 = (k : ℚ)

theorem is8dp_zero : is8dp 0 := ⟨0, by norm_num⟩

theorem is8dp_add {a b : ℚ} (ha : is8dp a) (hb : is8dp b) : is8dp (a + b) := by
  obtain ⟨k, hk⟩ := ha
  obtain ⟨l, hl⟩ := hb
  exact ⟨k + l, by push_cast; rw [add_mul, hk, hl]⟩

theorem is8dp_sub {a b : ℚ} (ha : is8dp a) (hb : is8dp b) : is8dp (a - b) := by
  obtain ⟨k, hk⟩ := ha
  obtain ⟨l, hl⟩ := hb
  exact ⟨k - l, by push_cast; rw [sub_mul, hk, hl]⟩

theorem is8dp_min {a b : ℚ} (ha : is8dp a) (hb : is8dp b) : is8dp (min a b) := by
  rcases le_total a b with h | h
  · rw [min_eq_left h]; exact ha
  · rw [min_eq_right h]; exact hb

theorem is8dp_max {a b : ℚ} (ha : is8dp a) (hb : is8dp b) : is8dp (max a b) := by
  rcases le_total a b with h | h
  · rw [max_eq_right h]; exact hb
  · rw [max_eq_left h]; exact ha

theorem roundTo8_eq_self {x : ℚ} (hx : is8dp x) : roundTo 8 x = x := by
  obtain ⟨k, hk⟩ := hx
  unfold roundTo
  have h8 : ((10 : ℚ) ^ (8 : ℕ)) = 100000000 := by norm_num
  rw [h8, hk]
  have hfloor : ⌊(k : ℚ) + 1 / 2⌋ = k := by
    rw [Int.floor_int_add]
    norm_num
  rw [hfloor]
  rw [div_eq_iff (by norm_num : (100000000 : ℚ) ≠ 0)]
  linarith [hk]

theorem is8dp_roundTo8 (x : ℚ) : is8dp (roundTo 8 x) := by
  unfold roundTo is8dp
  refine ⟨⌊x * 10 ^ 8 + 1 / 2⌋, ?_⟩
  have h : ((100000000 : ℚ)) = 10 ^ 8 := by norm_num
  rw [h, div_mul_cancel₀]
  norm_num

theorem roundTo8_nonneg {x : ℚ} (hx : 0 ≤ x) : 0 ≤ roundTo 8 x := by
  unfold roundTo
  apply div_nonneg _ (by positivity)
  have : (0 : ℤ) ≤ ⌊x * 10 ^ 8 + 1 / 2⌋ := by
    apply Int.floor_nonneg.mpr
    positivity
  exact_mod_cast this

/-- At 8-dp granularity a positive value stays positive after rounding
(it is at least `1e-8`). -/
theorem roundTo8_pos {x : ℚ} (hx : is8dp x) (hpos : 0 < x) : 0 < roundTo 8 x := by
  rw [roundTo8_eq_self hx]
  exact hpos

end FixedPointLemmas

/-- Total lot amount of a symbol (the `totalAmount` of
`recalculateSymbolState`). -/
def matchSum (symbol : String) (ps : List Position) : ℚ :=
  ((ps.filter fun p => p.symbol = symbol).map fun p => p.amount).sum

/-- Total entry cost of a symbol's lots (the `totalCost` of
`recalculateSymbolState`). -/
def matchCost (symbol : String) (ps : List Position) : ℚ :=
  ((ps.filter fun p => p.symbol = symbol).map fun p => p.entryPrice * p.amount).sum

theorem matchSum_cons (symbol : String) (p : Position) (ps : List Position) :
    matchSum symbol (p :: ps) =
      (if p.symbol = symbol then p.amount else 0) + matchSum symbol ps := by
  by_cases h : p.symbol = symbol <;> simp [matchSum, List.filter_cons, h]

theorem matchSum_nonneg (symbol : String) (ps : List Position)
    (h : ∀ p ∈ ps, 0 < p.amount) : 0 ≤ matchSum symbol ps := by
  induction ps with
  | nil => simp [matchSum]
  | cons p rest ih =>
    rw [matchSum_cons]
    have hp := h p (List.mem_cons_self p rest)
    have hrest := ih fun q hq => h q (List.mem_cons_of_mem p hq)
    by_cases hs : p.symbol = symbol
    · rw [if_pos hs]; linarith
    · rw [if_neg hs]; linarith

theorem matchSum_is8dp (symbol : String) (ps : List Position)
    (h : ∀ p ∈ ps, is8dp p.amount) : is8dp (matchSum symbol ps) := by
  induction ps with
  | nil => simpa [matchSum] using is8dp_zero
  | cons p rest ih =>
    rw [matchSum_cons]
    have hp := h p (List.mem_cons_self p rest)
    have hrest := ih fun q hq => h q (List.mem_cons_of_mem p hq)
    by_cases hs : p.symbol = symbol
    · rw [if_pos hs]; exact is8dp_add hp hrest
    · rw [if_neg hs]; simpa using hrest

theorem consumeGo_spec (symbol : String) (tgt : Option String) (ps : List Position) :
    ∀ (acc : ConsumeAcc),
    (∀ p ∈ ps, 0 < p.amount ∧ is8dp p.amount) →
    is8dp acc.remaining → is8dp acc.consumedAmount →
    ((consumeGo symbol tgt ps acc).2.consumedAmount +
        (consumeGo symbol tgt ps acc).2.remaining =
      acc.consumedAmount + acc.remaining) ∧
    (min acc.remaining 0 ≤ (consumeGo symbol tgt ps acc).2.remaining ∧
      (consumeGo symbol tgt ps acc).2.remaining ≤ acc.remaining) ∧
    (matchSum symbol (consumeGo symbol tgt ps acc).1 +
        (consumeGo symbol tgt ps acc).2.consumedAmount =
      matchSum symbol ps + acc.consumedAmount) ∧
    (∀ p ∈ (consumeGo symbol tgt ps acc).1, 0 < p.amount ∧ is8dp p.amount) ∧
    ((consumeGo symbol tgt ps acc).1.filter (fun p => p.symbol ≠ symbol) =
      ps.filter fun p => p.symbol ≠ symbol) ∧
    (∀ t, tgt = some t → t ≠ "" →
      (consumeGo symbol tgt ps acc).1.filter (fun p => p.id ≠ t) =
        ps.filter fun p => p.id ≠ t) ∧
    is8dp (consumeGo symbol tgt ps acc).2.remaining ∧
    is8dp (consumeGo symbol tgt ps acc).2.consumedAmount := by
  induction ps with
  | nil =>
    intro acc hpos hrem hcons
    refine ⟨by simp [consumeGo], ⟨min_le_left _ _, le_refl _⟩, by simp [consumeGo],
      by simp [consumeGo], by simp [consumeGo], ?_, hrem, hcons⟩
    intro t ht htne
    simp [consumeGo]
  | cons p rest ih =>
    intro acc hpos hrem hcons
    have hp := hpos p (List.mem_cons_self p rest)
    have hrest : ∀ q ∈ rest, 0 < q.amount ∧ is8dp q.amount :=
      fun q hq => hpos q (List.mem_cons_of_mem p hq)
    by_cases hsym : p.symbol ≠ symbol
    · have hred : consumeGo symbol tgt (p :: rest) acc =
          (p :: (consumeGo symbol tgt rest acc).1, (consumeGo symbol tgt rest acc).2) := by
        conv_lhs => rw [consumeGo]
        rw [if_pos hsym]
      obtain ⟨A, B, C, D, E, F, G1, G2⟩ := ih acc hrest hrem hcons
      rw [hred]
      refine ⟨A, B, ?_, ?_, ?_, ?_, G1, G2⟩
      · rw [matchSum_cons, if_neg (by simpa using hsym), matchSum_cons,
          if_neg (by simpa using hsym)]
        linarith
      · intro q hq
        rcases List.mem_cons.mp hq with hq | hq
        · exact hq ▸ hp
        · exact D q hq
      · rw [List.filter_cons_of_pos (by simpa using hsym),
          List.filter_cons_of_pos (by simpa using hsym), E]
      · intro t ht htne
        by_cases hid : p.id = t
        · rw [List.filter_cons_of_neg (by simpa using hid),
            List.filter_cons_of_neg (by simpa using hid), F t ht htne]
        · rw [List.filter_cons_of_pos (by simpa using hid),
            List.filter_cons_of_pos (by simpa using hid), F t ht htne]
    · push_neg at hsym
      by_cases hskip : targetSkips tgt p.id = true
      · have hred : consumeGo symbol tgt (p :: rest) acc =
            (p :: (consumeGo symbol tgt rest acc).1, (consumeGo symbol tgt rest acc).2) := by
          conv_lhs => rw [consumeGo]
          rw [if_neg (by simpa using hsym), if_pos hskip]
        obtain ⟨A, B, C, D, E, F, G1, G2⟩ := ih acc hrest hrem hcons
        rw [hred]
        have hidne : ∀ t, tgt = some t → t ≠ "" → p.id ≠ t := by
          intro t ht htne
          subst ht
          unfold targetSkips at hskip
          simp only [Bool.and_eq_true, Bool.not_eq_true'] at hskip
          intro hcontra
          rcases hskip with ⟨-, h2⟩
          exact absurd (by simpa using hcontra) (by simpa using h2)
        refine ⟨A, B, ?_, ?_, ?_, ?_, G1, G2⟩
        · rw [matchSum_cons, if_pos hsym, matchSum_cons, if_pos hsym]
          linarith
        · intro q hq
          rcases List.mem_cons.mp hq with hq | hq
          · exact hq ▸ hp
          · exact D q hq
        · rw [List.filter_cons_of_neg (by simpa using hsym),
            List.filter_cons_of_neg (by simpa using hsym), E]
        · intro t ht htne
          rw [List.filter_cons_of_pos (by simpa using hidne t ht htne),
            List.filter_cons_of_pos (by simpa using hidne t ht htne), F t ht htne]
      · by_cases hr0 : acc.remaining ≤ 0
        · have hred : consumeGo symbol tgt (p :: rest) acc =
              (p :: (consumeGo symbol tgt rest acc).1, (consumeGo symbol tgt rest acc).2) := by
            conv_lhs => rw [consumeGo]
            rw [if_neg (by simpa using hsym), if_neg hskip, if_pos hr0]
          obtain ⟨A, B, C, D, E, F, G1, G2⟩ := ih acc hrest hrem hcons
          rw [hred]
          refine ⟨A, B, ?_, ?_, ?_, ?_, G1, G2⟩
          · rw [matchSum_cons, if_pos hsym, matchSum_cons, if_pos hsym]
            linarith
          · intro q hq
            rcases List.mem_cons.mp hq with hq | hq
            · exact hq ▸ hp
            · exact D q hq
          · rw [List.filter_cons_of_neg (by simpa using hsym),
              List.filter_cons_of_neg (by simpa using hsym), E]
          · intro t ht htne
            by_cases hid : p.id = t
            · rw [List.filter_cons_of_neg (by simpa using hid),
                List.filter_cons_of_neg (by simpa using hid), F t ht htne]
            · rw [List.filter_cons_of_pos (by simpa using hid),
                List.filter_cons_of_pos (by simpa using hid), F t ht htne]
        · push_neg at hr0
          set consume := min p.amount acc.remaining with hconsume_def
          set keep := p.amount - consume with hkeep_def
          set acc' : ConsumeAcc :=
            { remaining := acc.remaining - consume,
              weightedEntryPrice := acc.weightedEntryPrice + p.entryPrice * consume,
              weightedRisk := acc.weightedRisk +
                jsOrQ p.initialRiskPerUnit
                  (max (p.entryPrice - jsOrQ p.stopLoss (p.entryPrice * 0.995))
                    0.00000001) * consume,
              weightedEntryFee := acc.weightedEntryFee +
                jsOrQ p.entryFeePerUnit 0 * consume,
              consumedAmount := acc.consumedAmount + consume,
              metadata := acc.metadata.update p } with hacc'_def
          have hred : consumeGo symbol tgt (p :: rest) acc =
              (if 0 < keep then
                ({ p with amount := roundTo 8 keep } ::
                  (consumeGo symbol tgt rest acc').1, (consumeGo symbol tgt rest acc').2)
              else consumeGo symbol tgt rest acc') := by
            conv_lhs => rw [consumeGo]
            rw [if_neg (by simpa using hsym), if_neg hskip, if_neg (by linarith)]
          have hcons8 : is8dp consume := is8dp_min hp.2 hrem
          have hkeep8 : is8dp keep := is8dp_sub hp.2 hcons8
          have hrem' : is8dp acc'.remaining := is8dp_sub hrem hcons8
          have hcons' : is8dp acc'.consumedAmount := is8dp_add hcons hcons8
          have hconsle : consume ≤ acc.remaining := min_le_right _ _
          have hconsamt : consume ≤ p.amount := min_le_left _ _
          have hconspos : 0 < consume := lt_min hp.1 hr0
          have hkeepnn : 0 ≤ keep := by rw [hkeep_def]; linarith
          obtain ⟨A, B, C, D, E, F, G1, G2⟩ := ih acc' hrest hrem' hcons'
          have hacc'r : acc'.remaining = acc.remaining - consume := rfl
          have hacc'c : acc'.consumedAmount = acc.consumedAmount + consume := rfl
          rw [hred]
          by_cases hkp : 0 < keep
          · rw [if_pos hkp]
            have hmodamt : roundTo 8 keep = keep := roundTo8_eq_self hkeep8
            refine ⟨?_, ?_, ?_, ?_, ?_, ?_, G1, G2⟩
            · rw [hacc'c, hacc'r] at A
              dsimp only
              linarith
            · dsimp only
              constructor
              · have hm' : min acc'.remaining 0 ≤ (consumeGo symbol tgt rest acc').2.remaining := B.1
                have : min acc.remaining 0 ≤ min acc'.remaining 0 := by
                  rw [hacc'r]
                  rcases le_total (acc.remaining - consume) 0 with h | h
                  · rw [min_eq_left h]
                    rcases le_total acc.remaining 0 with h2 | h2
                    · rw [min_eq_left h2]; linarith
                    · rw [min_eq_right h2]; linarith
                  · rw [min_eq_right h]
                    rcases le_total acc.remaining 0 with h2 | h2
                    · rw [min_eq_left h2]; exact h2
                    · rw [min_eq_right h2]
                linarith [B.1]
              · have := B.2
                rw [hacc'r] at this
                linarith
            · dsimp only
              have hC := C
              rw [hacc'c] at hC
              have hmod : ({ p with amount := roundTo 8 keep } : Position).symbol
                  = symbol := hsym
              rw [matchSum_cons, if_pos hmod, matchSum_cons, if_pos hsym]
              dsimp only
              rw [hmodamt]
              have hkc : keep + consume = p.amount := by rw [hkeep_def]; ring
              linarith [hC]
            · intro q hq
              rcases List.mem_cons.mp hq with hq | hq
              · subst hq
                dsimp only
                rw [hmodamt]
                exact ⟨hkp, hkeep8⟩
              · exact D q hq
            · rw [List.filter_cons_of_neg (by simp [hsym]),
                List.filter_cons_of_neg (by simp [hsym]), E]
            · intro t ht htne
              have hid : p.id = t := by
                subst ht
                unfold targetSkips at hskip
                simp only [Bool.and_eq_true, Bool.not_eq_true'] at hskip
                by_contra hcontra
                apply hskip
                constructor
                · simpa using htne
                · simpa using hcontra
              rw [List.filter_cons_of_neg (by simp [hid]),
                List.filter_cons_of_neg (by simp [hid]), F t ht htne]
          · rw [if_neg hkp]
            have hkeep0 : keep = 0 := le_antisymm (by linarith) hkeepnn
            have hconseq : consume = p.amount := by rw [hkeep_def] at hkeep0; linarith
            refine ⟨?_, ?_, ?_, D, ?_, ?_, G1, G2⟩
            · rw [hacc'c, hacc'r] at A
              linarith
            · constructor
              · have : min acc.remaining 0 ≤ min acc'.remaining 0 := by
                  rw [hacc'r]
                  rcases le_total (acc.remaining - consume) 0 with h | h
                  · rw [min_eq_left h]
                    rcases le_total acc.remaining 0 with h2 | h2
                    · rw [min_eq_left h2]; linarith
                    · rw [min_eq_right h2]; linarith
                  · rw [min_eq_right h]
                    rcases le_total acc.remaining 0 with h2 | h2
                    · rw [min_eq_left h2]; exact h2
                    · rw [min_eq_right h2]
                linarith [B.1]
              · have := B.2
                rw [hacc'r] at this
                linarith
            · have hC := C
              rw [hacc'c] at hC
              rw [matchSum_cons, if_pos hsym]
              linarith [hC]
            · rw [List.filter_cons_of_neg (by simp [hsym])]
              exact E
            · intro t ht htne
              have hid : p.id = t := by
                subst ht
                unfold targetSkips at hskip
                simp only [Bool.and_eq_true, Bool.not_eq_true'] at hskip
                by_contra hcontra
                apply hskip
                constructor
                · simpa using htne
                · simpa using hcontra
              rw [List.filter_cons_of_neg (by simp [hid]), F t ht htne]

theorem recalc_holdings_eq (state : BotState) (symbol : String) :
    jsGet (recalculateSymbolState state symbol).holdings symbol =
      roundTo 8 (max (matchSum symbol state.activePositions) 0) := by
  unfold recalculateSymbolState
  dsimp only
  rw [jsGet_setKey_self]
  rfl

theorem recalc_avg_eq (state : BotState) (symbol : String) :
    jsGet (recalculateSymbolState state symbol).averageEntryPrices symbol =
      (if 0 < matchSum symbol state.activePositions
       then roundTo 6 (matchCost symbol state.activePositions /
          matchSum symbol state.activePositions)
       else 0) := by
  unfold recalculateSymbolState
  dsimp only
  rw [jsGet_setKey_self]
  rfl

/-- The initial accumulator of `consumePositions`. -/
def initConsumeAcc (amountRequested : ℚ) : ConsumeAcc :=
  { remaining := amountRequested, weightedEntryPrice := 0, weightedRisk := 0,
    weightedEntryFee := 0, consumedAmount := 0, metadata := ConsumeMetadata.empty }

theorem initConsumeAcc_def (amt : ℚ) :
    ({ remaining := amt, weightedEntryPrice := 0, weightedRisk := 0,
       weightedEntryFee := 0, consumedAmount := 0,
       metadata := ConsumeMetadata.empty } : ConsumeAcc) = initConsumeAcc amt := rfl

theorem consumePositions_lots (state : BotState) (symbol : String) (amt : ℚ)
    (tgt : Option String)
    (hpos : ∀ p ∈ state.activePositions, 0 < p.amount ∧ is8dp p.amount)
    (hamt : is8dp amt) :
    ∀ p ∈ (consumePositions state symbol amt tgt).positions,
      0 < p.amount ∧ is8dp p.amount := by
  obtain ⟨A, B, C, D, E, F, G1, G2⟩ :=
    consumeGo_spec symbol tgt state.activePositions (initConsumeAcc amt) hpos hamt
      is8dp_zero
  unfold consumePositions
  dsimp only
  rw [initConsumeAcc_def]
  by_cases h0 : (consumeGo symbol tgt state.activePositions (initConsumeAcc amt)).2.consumedAmount ≤ 0
  · rw [if_pos h0]
    exact hpos
  · rw [if_neg h0]
    exact D

/-- C10 (amended): `consumePositions` consumes at most `max(requested, 0)`
and at most the total matching lot amount, leaves every other-symbol lot (and,
under a non-empty target id, every non-target lot) unchanged in order, and —
at the ledger's 8-decimal granularity with positive lots — every returned lot
still has a strictly positive amount. -/
theorem consumePositions_frame (state : BotState) (symbol : String) (amt : ℚ)
    (tgt : Option String)
    (hpos : ∀ p ∈ state.activePositions, 0 < p.amount ∧ is8dp p.amount)
    (hamt : is8dp amt) :
    (consumePositions state symbol amt tgt).consumedAmount ≤ max amt 0 ∧
    (consumePositions state symbol amt tgt).consumedAmount ≤
      matchSum symbol state.activePositions ∧
    ((consumePositions state symbol amt tgt).positions.filter
        (fun p => p.symbol ≠ symbol) =
      state.activePositions.filter fun p => p.symbol ≠ symbol) ∧
    (∀ t, tgt = some t → t ≠ "" →
      (consumePositions state symbol amt tgt).positions.filter (fun p => p.id ≠ t) =
        state.activePositions.filter fun p => p.id ≠ t) ∧
    (∀ p ∈ (consumePositions state symbol amt tgt).positions, 0 < p.amount) := by
  obtain ⟨A, B, C, D, E, F, G1, G2⟩ :=
    consumeGo_spec symbol tgt state.activePositions (initConsumeAcc amt) hpos hamt
      is8dp_zero
  have hlots := consumePositions_lots state symbol amt tgt hpos hamt
  have hms : 0 ≤ matchSum symbol state.activePositions :=
    matchSum_nonneg symbol state.activePositions fun p hp => (hpos p hp).1
  unfold consumePositions
  dsimp only
  rw [initConsumeAcc_def]
  by_cases h0 : (consumeGo symbol tgt state.activePositions (initConsumeAcc amt)).2.consumedAmount ≤ 0
  · rw [if_pos h0]
    refine ⟨le_max_right _ _, hms, rfl, fun t ht htne => rfl, ?_⟩
    intro p hp
    exact (hpos p hp).1
  · rw [if_neg h0]
    dsimp only
    push_neg at h0
    have hround : roundTo 8
        (consumeGo symbol tgt state.activePositions (initConsumeAcc amt)).2.consumedAmount
        = (consumeGo symbol tgt state.activePositions (initConsumeAcc amt)).2.consumedAmount :=
      roundTo8_eq_self G2
    simp only [show (initConsumeAcc amt).consumedAmount = 0 from rfl,
      show (initConsumeAcc amt).remaining = amt from rfl] at A B C
    have hout_nonneg : 0 ≤ matchSum symbol
        (consumeGo symbol tgt state.activePositions (initConsumeAcc amt)).1 :=
      matchSum_nonneg _ _ fun p hp => (D p hp).1
    refine ⟨?_, ?_, E, F, ?_⟩
    · rw [hround]
      rcases le_total amt 0 with h | h
      · rw [max_eq_right h]
        have hb1 : min amt 0 ≤
            (consumeGo symbol tgt state.activePositions (initConsumeAcc amt)).2.remaining :=
          B.1
        rw [min_eq_left h] at hb1
        linarith
      · rw [max_eq_left h]
        have hb1 : min amt 0 ≤
            (consumeGo symbol tgt state.activePositions (initConsumeAcc amt)).2.remaining :=
          B.1
        rw [min_eq_right h] at hb1
        linarith
    · rw [hround]
      linarith
    · intro p hp
      exact (D p hp).1

/-- A single whole lot used as counterexample input: its amount `1 + 1e-9`
lies below the ledger's 8-decimal granularity. -/
def exDustPos : Position :=
  { id := "p1", symbol := "BTC-USDC", entryPrice := 100,
    amount := 1 + 1/1000000000, stopLoss := none, takeProfit := none,
    timestamp := 0, initialRiskPerUnit := none, entryFeePerUnit := none,
    setupScore := none, marketRegime := none, strategyVersion := none }

def exDustState : BotState :=
  { balance := 0, holdings := [("BTC-USDC", 1 + 1/1000000000)],
    averageEntryPrices := [("BTC-USDC", 100)],
    activePositions := [exDustPos],
    trades := [], totalPortfolioValue := 100, activeSymbol := "BTC-USDC" }

/-- C10 counterexample: selling 1 out of a lot of `1 + 1e-9` leaves a kept
amount of `1e-9 > 0`, but the lot is pushed with `roundTo 8` of that keep,
which is `0` — so the returned lot list contains a lot of amount exactly `0`,
refuting the claim that every returned lot has strictly positive amount. -/
theorem consumePositions_positive_amount_cex :
    ((consumePositions exDustState "BTC-USDC" 1 none).positions.map
        fun p => p.amount) = [0] ∧
    ¬ (∀ p ∈ (consumePositions exDustState "BTC-USDC" 1 none).positions,
        0 < p.amount) := by
  have hmap : ((consumePositions exDustState "BTC-USDC" 1 none).positions.map
      fun p => p.amount) = [0] := by
    norm_num [consumePositions, consumeGo, targetSkips, exDustState, exDustPos,
      ConsumeMetadata.empty, ConsumeMetadata.update, jsOrQ, min_def, max_def,
      roundTo]
  refine ⟨hmap, fun h => ?_⟩
  have hall : ∀ a ∈ ((consumePositions exDustState "BTC-USDC" 1 none).positions.map
      fun p => p.amount), 0 < a := by
    intro a ha
    obtain ⟨p, hp, hpa⟩ := List.mem_map.mp ha
    exact hpa ▸ h p hp
  rw [hmap] at hall
  exact absurd (hall 0 (by simp)) (lt_irrefl 0)

/-- Witness lot: half a coin, exactly representable at 8 decimals. -/
def exFramePos : Position :=
  { id := "p1", symbol := "BTC-USDC", entryPrice := 100,
    amount := 1/2, stopLoss := none, takeProfit := none,
    timestamp := 0, initialRiskPerUnit := none, entryFeePerUnit := none,
    setupScore := none, marketRegime := none, strategyVersion := none }

def exFrameState : BotState :=
  { balance := 0, holdings := [("BTC-USDC", 1/2)],
    averageEntryPrices := [("BTC-USDC", 100)],
    activePositions := [exFramePos],
    trades := [], totalPortfolioValue := 100, activeSymbol := "BTC-USDC" }

theorem consumePositions_frame_witness :
    (consumePositions exFrameState "BTC-USDC" (1/4) none).consumedAmount ≤
      max (1/4) 0 ∧
    (consumePositions exFrameState "BTC-USDC" (1/4) none).consumedAmount ≤
      matchSum "BTC-USDC" exFrameState.activePositions ∧
    ((consumePositions exFrameState "BTC-USDC" (1/4) none).positions.filter
        (fun p => p.symbol ≠ "BTC-USDC") =
      exFrameState.activePositions.filter fun p => p.symbol ≠ "BTC-USDC") ∧
    (∀ t, (none : Option String) = some t → t ≠ "" →
      (consumePositions exFrameState "BTC-USDC" (1/4) none).positions.filter
          (fun p => p.id ≠ t) =
        exFrameState.activePositions.filter fun p => p.id ≠ t) ∧
    (∀ p ∈ (consumePositions exFrameState "BTC-USDC" (1/4) none).positions,
      0 < p.amount) :=
  consumePositions_frame exFrameState "BTC-USDC" (1/4) none
    (by
      intro p hp
      rw [show exFrameState.activePositions = [exFramePos] from rfl,
        List.mem_singleton] at hp
      subst hp
      exact ⟨by norm_num [exFramePos], ⟨50000000, by norm_num [exFramePos]⟩⟩)
    ⟨25000000, by norm_num⟩

theorem executeSellTrade_positions (state : BotState) (symbol : String)
    (amt marketPrice atr : ℚ) (er : TradeExitReason) (tgt : Option String)
    (fb : Option ConsumeMetadata) (now : ℤ) (tid : String)
    (hcons : 0 < (consumePositions state symbol amt tgt).consumedAmount) :
    (executeSellTrade state symbol amt marketPrice atr er tgt fb now tid).activePositions
      = (consumePositions state symbol amt tgt).positions := by
  have hn : ¬ (consumePositions state symbol amt tgt).consumedAmount ≤ 0 :=
    not_le.mpr hcons
  unfold executeSellTrade
  rw [if_neg hn]
  rfl

theorem executeSellTrade_holdings (state : BotState) (symbol : String)
    (amt marketPrice atr : ℚ) (er : TradeExitReason) (tgt : Option String)
    (fb : Option ConsumeMetadata) (now : ℤ) (tid : String)
    (hcons : 0 < (consumePositions state symbol amt tgt).consumedAmount) :
    jsGet (executeSellTrade state symbol amt marketPrice atr er tgt fb now tid).holdings
        symbol
      = roundTo 8 (max (matchSum symbol
          (consumePositions state symbol amt tgt).positions) 0) := by
  have hn : ¬ (consumePositions state symbol amt tgt).consumedAmount ≤ 0 :=
    not_le.mpr hcons
  unfold executeSellTrade
  rw [if_neg hn]
  dsimp only
  rw [recalc_holdings_eq]
  rfl

theorem executeSellTrade_avg (state : BotState) (symbol : String)
    (amt marketPrice atr : ℚ) (er : TradeExitReason) (tgt : Option String)
    (fb : Option ConsumeMetadata) (now : ℤ) (tid : String)
    (hcons : 0 < (consumePositions state symbol amt tgt).consumedAmount) :
    jsGet (executeSellTrade state symbol amt marketPrice atr er tgt fb now
        tid).averageEntryPrices symbol
      = (if 0 < matchSum symbol (consumePositions state symbol amt tgt).positions
         then roundTo 6 (matchCost symbol (consumePositions state symbol amt tgt).positions
            / matchSum symbol (consumePositions state symbol amt tgt).positions)
         else 0) := by
  have hn : ¬ (consumePositions state symbol amt tgt).consumedAmount ≤ 0 :=
    not_le.mpr hcons
  unfold executeSellTrade
  rw [if_neg hn]
  dsimp only
  rw [recalc_avg_eq]
  rfl

/-- C7 (amended): after a successful sell (positive consumed amount), the
active lots are exactly the consume survivors; with 8-decimal lot amounts the
symbol's holdings equal exactly the sum of the remaining lots' amounts and
the average entry price is `roundTo 6` of the amount-weighted entry price of
the remaining lots when that sum is positive; and both are zeroed exactly
when the remaining total is `0` (not merely below `1e-6`). -/
theorem executeSellTrade_recalculates (state : BotState) (symbol : String)
    (amt marketPrice atr : ℚ) (er : TradeExitReason) (tgt : Option String)
    (fb : Option ConsumeMetadata) (now : ℤ) (tid : String)
    (hpos : ∀ p ∈ state.activePositions, 0 < p.amount ∧ is8dp p.amount)
    (hamt : is8dp amt)
    (hcons : 0 < (consumePositions state symbol amt tgt).consumedAmount) :
    (executeSellTrade state symbol amt marketPrice atr er tgt fb now tid).activePositions
      = (consumePositions state symbol amt tgt).positions ∧
    jsGet (executeSellTrade state symbol amt marketPrice atr er tgt fb now tid).holdings
        symbol
      = matchSum symbol (consumePositions state symbol amt tgt).positions ∧
    jsGet (executeSellTrade state symbol amt marketPrice atr er tgt fb now
        tid).averageEntryPrices symbol
      = (if 0 < matchSum symbol (consumePositions state symbol amt tgt).positions
         then roundTo 6 (matchCost symbol (consumePositions state symbol amt tgt).positions
            / matchSum symbol (consumePositions state symbol amt tgt).positions)
         else 0) ∧
    (matchSum symbol (consumePositions state symbol amt tgt).positions = 0 →
      jsGet (executeSellTrade state symbol amt marketPrice atr er tgt fb now tid).holdings
          symbol = 0 ∧
      jsGet (executeSellTrade state symbol amt marketPrice atr er tgt fb now
          tid).averageEntryPrices symbol = 0) := by
  have hlots := consumePositions_lots state symbol amt tgt hpos hamt
  have hM0 : 0 ≤ matchSum symbol (consumePositions state symbol amt tgt).positions :=
    matchSum_nonneg _ _ fun p hp => (hlots p hp).1
  have hM8 : is8dp (matchSum symbol (consumePositions state symbol amt tgt).positions) :=
    matchSum_is8dp _ _ fun p hp => (hlots p hp).2
  refine ⟨executeSellTrade_positions state symbol amt marketPrice atr er tgt fb now tid
    hcons, ?_, executeSellTrade_avg state symbol amt marketPrice atr er tgt fb now tid
    hcons, ?_⟩
  · rw [executeSellTrade_holdings state symbol amt marketPrice atr er tgt fb now tid
      hcons, max_eq_left hM0, roundTo8_eq_self hM8]
  · intro hz
    constructor
    · rw [executeSellTrade_holdings state symbol amt marketPrice atr er tgt fb now tid
        hcons, hz]
      norm_num [roundTo]
    · rw [executeSellTrade_avg state symbol amt marketPrice atr er tgt fb now tid
        hcons, hz]
      norm_num

/-- Counterexample input lot: one whole coin at entry price 100. -/
def exSellPos : Position :=
  { id := "p1", symbol := "BTC-USDC", entryPrice := 100,
    amount := 1, stopLoss := none, takeProfit := none,
    timestamp := 0, initialRiskPerUnit := none, entryFeePerUnit := none,
    setupScore := none, marketRegime := none, strategyVersion := none }

def exSellState : BotState :=
  { balance := 1000, holdings := [("BTC-USDC", 1)],
    averageEntryPrices := [("BTC-USDC", 100)],
    activePositions := [exSellPos],
    trades := [], totalPortfolioValue := 1100, activeSymbol := "BTC-USDC" }

/-- C7 counterexample: selling `0.9999999` out of a lot of `1` leaves a
remaining total of `1e-7 < 1e-6`, yet the recomputed holdings are `1e-7`
(not `0`) and the recomputed average entry price is `100` (not `0`):
`recalculateSymbolState` zeroes only at total `≤ 0`, refuting the claimed
`< 1e-6` zeroing. -/
theorem executeSellTrade_zeroing_cex :
    matchSum "BTC-USDC" ((consumePositions exSellState "BTC-USDC"
        (9999999/10000000) none).positions) = 1/10000000 ∧
    (1/10000000 : ℚ) < 1/1000000 ∧
    jsGet (executeSellTrade exSellState "BTC-USDC" (9999999/10000000) 100 1
        TradeExitReason.MANUAL none none 0 "t1").holdings "BTC-USDC"
      = 1/10000000 ∧
    jsGet (executeSellTrade exSellState "BTC-USDC" (9999999/10000000) 100 1
        TradeExitReason.MANUAL none none 0 "t1").averageEntryPrices "BTC-USDC"
      = 100 := by
  have hc : (consumePositions exSellState "BTC-USDC" (9999999/10000000)
      none).consumedAmount = 9999999/10000000 := by
    norm_num [consumePositions, consumeGo, targetSkips, exSellState, exSellPos,
      ConsumeMetadata.empty, ConsumeMetadata.update, jsOrQ, min_def, max_def,
      roundTo]
  have hp : (consumePositions exSellState "BTC-USDC" (9999999/10000000)
      none).positions = [{ exSellPos with amount := 1/10000000 }] := by
    norm_num [consumePositions, consumeGo, targetSkips, exSellState, exSellPos,
      ConsumeMetadata.empty, ConsumeMetadata.update, jsOrQ, min_def, max_def,
      roundTo]
  have hcons : 0 < (consumePositions exSellState "BTC-USDC" (9999999/10000000)
      none).consumedAmount := by
    rw [hc]; norm_num
  have hms : matchSum "BTC-USDC" ((consumePositions exSellState "BTC-USDC"
      (9999999/10000000) none).positions) = 1/10000000 := by
    rw [hp]
    norm_num [matchSum, exSellPos]
  have hmc : matchCost "BTC-USDC" ((consumePositions exSellState "BTC-USDC"
      (9999999/10000000) none).positions) = 100/10000000 := by
    rw [hp]
    norm_num [matchCost, exSellPos]
  refine ⟨hms, by norm_num, ?_, ?_⟩
  · rw [executeSellTrade_holdings exSellState "BTC-USDC" (9999999/10000000) 100 1
      TradeExitReason.MANUAL none none 0 "t1" hcons, hms]
    norm_num [roundTo]
  · rw [executeSellTrade_avg exSellState "BTC-USDC" (9999999/10000000) 100 1
      TradeExitReason.MANUAL none none 0 "t1" hcons, hms, hmc]
    norm_num [roundTo]

theorem executeSellTrade_recalculates_witness :
    (executeSellTrade exFrameState "BTC-USDC" (1/4) 100 1 TradeExitReason.MANUAL
        none none 0 "t1").activePositions
      = (consumePositions exFrameState "BTC-USDC" (1/4) none).positions ∧
    jsGet (executeSellTrade exFrameState "BTC-USDC" (1/4) 100 1
        TradeExitReason.MANUAL none none 0 "t1").holdings "BTC-USDC"
      = matchSum "BTC-USDC" (consumePositions exFrameState "BTC-USDC" (1/4)
          none).positions ∧
    jsGet (executeSellTrade exFrameState "BTC-USDC" (1/4) 100 1
        TradeExitReason.MANUAL none none 0 "t1").averageEntryPrices "BTC-USDC"
      = (if 0 < matchSum "BTC-USDC" (consumePositions exFrameState "BTC-USDC"
            (1/4) none).positions
         then roundTo 6 (matchCost "BTC-USDC" (consumePositions exFrameState
              "BTC-USDC" (1/4) none).positions
            / matchSum "BTC-USDC" (consumePositions exFrameState "BTC-USDC"
              (1/4) none).positions)
         else 0) ∧
    (matchSum "BTC-USDC" (consumePositions exFrameState "BTC-USDC" (1/4)
        none).positions = 0 →
      jsGet (executeSellTrade exFrameState "BTC-USDC" (1/4) 100 1
          TradeExitReason.MANUAL none none 0 "t1").holdings "BTC-USDC" = 0 ∧
      jsGet (executeSellTrade exFrameState "BTC-USDC" (1/4) 100 1
          TradeExitReason.MANUAL none none 0 "t1").averageEntryPrices "BTC-USDC"
        = 0) :=
  executeSellTrade_recalculates exFrameState "BTC-USDC" (1/4) 100 1
    TradeExitReason.MANUAL none none 0 "t1"
    (by
      intro p hp
      rw [show exFrameState.activePositions = [exFramePos] from rfl,
        List.mem_singleton] at hp
      subst hp
      exact ⟨by norm_num [exFramePos], ⟨50000000, by norm_num [exFramePos]⟩⟩)
    ⟨25000000, by norm_num⟩
    (by
      norm_num [consumePositions, consumeGo, targetSkips, exFrameState, exFramePos,
        ConsumeMetadata.empty, ConsumeMetadata.update, jsOrQ, min_def, max_def,
        roundTo])

section DeriveSignalModel

/-!
### `deriveSignal` (`src/unnamed/part_008`, lines 105–302)

The signal derivation pipeline: ATR, market-regime detection, confluence
scoring, the inactivity-based relaxation of the minimum score, and the final
action choice.  `loadStrategyState().parameters` is passed in as `params` and
`Date.now()` as `now`.  `Number.POSITIVE_INFINITY` (the inactivity of a bot
with no recorded trade, or with latest trade timestamp `0`, which is falsy)
is modelled by `Option ℚ` with `none` standing for infinity.
-/

/-- `average` of `part_008` line 105. -/
def averageQ (xs : List ℚ) : ℚ := if xs = [] then 0 else xs.sum / xs.length

/-- `getLatestTradeTimestamp` (line 108): `null` on an empty list, otherwise
`reduce(Math.max, 0)` over the timestamps. -/
def getLatestTradeTimestamp (trades : List Trade) : Option ℤ :=
  if trades = [] then none
  else some (trades.foldl (fun latest t => max latest t.timestamp) 0)

/-- `inactivityMs` (line 231): `latestTradeTimestamp ? now - it : Infinity`;
both `null` and a (falsy) `0` timestamp yield infinity (`none`). -/
def inactivityMs (now : ℤ) (trades : List Trade) : Option ℚ :=
  match getLatestTradeTimestamp trades with
  | none => none
  | some ts => if ts = 0 then none else some ((now - ts : ℤ) : ℚ)

def INACTIVITY_RELAX_START_MS : ℚ := 2 * 60 * 60 * 1000

def INACTIVITY_RELAX_WINDOW_MS : ℚ := 12 * 60 * 60 * 1000

def MAX_MIN_SCORE_RELAX : ℚ := 0.08

/-- `inactivityRelaxRatio` (lines 232–235); at infinite inactivity the clamp
evaluates to `1`. -/
def inactivityRelaxRatio (inact : Option ℚ) : ℚ :=
  match inact with
  | none => 1
  | some ms =>
    if INACTIVITY_RELAX_START_MS < ms
    then clamp ((ms - INACTIVITY_RELAX_START_MS) / INACTIVITY_RELAX_WINDOW_MS) 0 1
    else 0

/-- The true ranges of consecutive candle pairs (`calculateAtr`, lines
116–125). -/
def trueRanges : List Candle → List ℚ
  | [] => []
  | [_] => []
  | a :: b :: rest =>
    max (b.high - b.low) (max |b.high - a.close| |b.low - a.close|) ::
      trueRanges (b :: rest)

/-- `calculateAtr` (line 113): average of the last `period` true ranges
(`slice(-period)`). -/
def calculateAtr (candles : List Candle) (period : ℕ) : ℚ :=
  if candles.length < 2 then 0
  else averageQ ((trueRanges candles).drop ((trueRanges candles).length - period))

/-- `detectMarketRegime` (lines 129–140). -/
def detectMarketRegime (candle : Candle) (atrPct minAtrPct maxAtrPct : ℚ) :
    MarketRegime :=
  let emaShort := jsOrQ candle.emaShort candle.close
  let emaLong := jsOrQ candle.emaLong candle.close
  let trendGap := (emaShort - emaLong) / max candle.close 1
  if atrPct < minAtrPct then MarketRegime.CHOP
  else if maxAtrPct * 1.2 < atrPct then MarketRegime.HIGH_VOLATILITY
  else if 0.0015 < trendGap ∧ emaShort ≤ candle.close then MarketRegime.TRENDING_UP
  else if trendGap < -0.0015 ∧ candle.close ≤ emaShort then MarketRegime.TRENDING_DOWN
  else MarketRegime.RANGING

/-- The sub-scores and total of `scoreSetup` (lines 147–194); the
`threshold` and `entryReason` fields are purely informational and omitted. -/
structure SetupScoreBreakdown where
  pullbackToEma : ℚ
  rsiRecovery : ℚ
  momentumConfirmation : ℚ
  volumeConfirmation : ℚ
  trendAlignment : ℚ
  total : ℚ
deriving DecidableEq, Repr

/-- `scoreSetup` (lines 147–194). -/
def scoreSetup (candles : List Candle) (current : Candle) (regime : MarketRegime) :
    SetupScoreBreakdown :=
  let previous := if 2 ≤ candles.length
    then candles.getD (candles.length - 2) current else current
  let emaShort := jsOrQ current.emaShort current.close
  let avgVolume := averageQ ((candles.drop (candles.length - 20)).map fun c => c.volume)
  let volumeRatio := if 0 < avgVolume then current.volume / avgVolume else 1
  let momentum := if 0 < previous.close
    then (current.close - previous.close) / previous.close else 0
  let rsi := jsNullish current.rsi 50
  let rsiPrev := jsNullish previous.rsi rsi
  let pullbackDistancePct := |current.close - emaShort| / max current.close 1
  let pullbackToEma := clamp (1 - pullbackDistancePct / 0.0035) 0 1
  let rsiRecovery := clamp ((rsi - 45) / 20 + (if rsiPrev < rsi then 0.2 else 0)) 0 1
  let momentumConfirmation := clamp (momentum / 0.004 +
    (if previous.close < current.close then 0.3 else 0)) 0 1
  let volumeConfirmation := clamp ((volumeRatio - 0.9) / 0.4) 0 1
  let trendAlignment : ℚ := if regime = MarketRegime.TRENDING_UP then 1
    else if regime = MarketRegime.RANGING then 0.45 else 0
  let score := clamp (pullbackToEma * 0.22 + rsiRecovery * 0.20 +
    momentumConfirmation * 0.20 + volumeConfirmation * 0.16 +
    trendAlignment * 0.22) 0 1
  { pullbackToEma := pullbackToEma, rsiRecovery := rsiRecovery,
    momentumConfirmation := momentumConfirmation,
    volumeConfirmation := volumeConfirmation, trendAlignment := trendAlignment,
    total := score }

/-- Placeholder candle for the (unreachable) out-of-bounds index of
`candles[candles.length - 1]` once `candles.length ≥ 50`. -/
def defaultCandle : Candle :=
  { timestamp := 0, high := 0, low := 0, close := 0, volume := 0,
    rsi := none, emaShort := none, emaLong := none, atr := none }

/-- `current = candles[candles.length - 1]` (line 228). -/
def lastCandle (candles : List Candle) : Candle :=
  candles.getD (candles.length - 1) defaultCandle

/-- `atr = calculateAtr(candles, 14)` (line 239). -/
def signalAtr (candles : List Candle) : ℚ := calculateAtr candles 14

/-- The regime computed by `deriveSignal` (lines 240–241). -/
def signalRegime (params : StrategyParameters) (candles : List Candle) :
    MarketRegime :=
  detectMarketRegime (lastCandle candles)
    (signalAtr candles / max (lastCandle candles).close 1)
    params.minAtrPct params.maxAtrPct

/-- `effectiveMinScore` (lines 230–237). -/
def effectiveMinScore (params : StrategyParameters) (state : BotState)
    (now : ℤ) : ℚ :=
  clamp (params.minScore -
    MAX_MIN_SCORE_RELAX * inactivityRelaxRatio (inactivityMs now state.trades))
    0.56 0.95

/-- The breakdown computed by `deriveSignal` (line 242). -/
def signalBreakdown (params : StrategyParameters) (candles : List Candle) :
    SetupScoreBreakdown :=
  scoreSetup candles (lastCandle candles) (signalRegime params candles)

/-- `volumeRatio` recomputed at lines 243–244. -/
def signalVolumeRatio (candles : List Candle) : ℚ :=
  let avgVolume := averageQ ((candles.drop (candles.length - 20)).map fun c => c.volume)
  if 0 < avgVolume then (lastCandle candles).volume / avgVolume else 1

/-- `rangingEntryBuffer` (line 257): `0.01` after at least six idle hours
(infinite inactivity included), else `0.04`. -/
def rangingEntryBuffer (state : BotState) (now : ℤ) : ℚ :=
  match inactivityMs now state.trades with
  | none => 0.01
  | some ms => if (6 * 60 * 60 * 1000 : ℚ) ≤ ms then 0.01 else 0.04

/-- The `action` computed by `deriveSignal` (lines 196–302): `HOLD` under 50
candles; `BUY` on a trending-up setup at the adaptive threshold or on a
ranging setup with buffer, RSI-recovery, momentum and volume-ratio
confirmations; `SELL` on a down-trend or high-volatility regime with positive
holdings. -/
def deriveSignalAction (params : StrategyParameters) (state : BotState)
    (candles : List Candle) (now : ℤ) : ActionType :=
  if candles.length < 50 then ActionType.HOLD
  else if signalRegime params candles = MarketRegime.TRENDING_UP ∧
      effectiveMinScore params state now ≤ (signalBreakdown params candles).total then
    ActionType.BUY
  else if signalRegime params candles = MarketRegime.RANGING ∧
      effectiveMinScore params state now + rangingEntryBuffer state now ≤
        (signalBreakdown params candles).total ∧
      (55/100 : ℚ) ≤ (signalBreakdown params candles).rsiRecovery ∧
      (1/2 : ℚ) ≤ (signalBreakdown params candles).momentumConfirmation ∧
      (9/10 : ℚ) ≤ signalVolumeRatio candles then
    ActionType.BUY
  else if (signalRegime params candles = MarketRegime.TRENDING_DOWN ∨
      signalRegime params candles = MarketRegime.HIGH_VOLATILITY) ∧
      0 < jsGet state.holdings state.activeSymbol then
    ActionType.SELL
  else ActionType.HOLD

end DeriveSignalModel

/-- C6 (amended): with at least 50 candles, the derived action is BUY iff the
regime is TRENDING_UP with score at least the effective min score, or the
regime is RANGING with score at least the effective min score plus the
inactivity-dependent buffer, RSI-recovery ≥ 0.55, momentum confirmation
≥ 0.5 **and volume ratio ≥ 0.9** (the volume-ratio condition is in the code
but absent from the claim); the action is SELL iff the regime is
TRENDING_DOWN or HIGH_VOLATILITY and the active symbol's holdings are
positive; otherwise the action is HOLD. -/
theorem deriveSignal_action_iff (params : StrategyParameters) (state : BotState)
    (candles : List Candle) (now : ℤ) (h50 : 50 ≤ candles.length) :
    (deriveSignalAction params state candles now = ActionType.BUY ↔
      ((signalRegime params candles = MarketRegime.TRENDING_UP ∧
        effectiveMinScore params state now ≤ (signalBreakdown params candles).total) ∨
       (signalRegime params candles = MarketRegime.RANGING ∧
        effectiveMinScore params state now + rangingEntryBuffer state now ≤
          (signalBreakdown params candles).total ∧
        (55/100 : ℚ) ≤ (signalBreakdown params candles).rsiRecovery ∧
        (1/2 : ℚ) ≤ (signalBreakdown params candles).momentumConfirmation ∧
        (9/10 : ℚ) ≤ signalVolumeRatio candles))) ∧
    (deriveSignalAction params state candles now = ActionType.SELL ↔
      ((signalRegime params candles = MarketRegime.TRENDING_DOWN ∨
        signalRegime params candles = MarketRegime.HIGH_VOLATILITY) ∧
       0 < jsGet state.holdings state.activeSymbol)) := by
  have hne : ¬ candles.length < 50 := not_lt.mpr h50
  unfold deriveSignalAction
  rw [if_neg hne]
  split_ifs with h1 h2 h3
  · refine ⟨⟨fun _ => Or.inl h1, fun _ => rfl⟩, ?_⟩
    constructor
    · intro hEq
      exact absurd hEq (by simp)
    · rintro ⟨hreg, -⟩
      rcases hreg with h | h <;> (rw [h1.1] at h; simp at h)
  · refine ⟨⟨fun _ => Or.inr h2, fun _ => rfl⟩, ?_⟩
    constructor
    · intro hEq
      exact absurd hEq (by simp)
    · rintro ⟨hreg, -⟩
      rcases hreg with h | h <;> (rw [h2.1] at h; simp at h)
  · refine ⟨?_, ⟨fun _ => h3, fun _ => rfl⟩⟩
    constructor
    · intro hEq
      exact absurd hEq (by simp)
    · rintro (h | h)
      · exact absurd h h1
      · exact absurd h h2
  · refine ⟨?_, ?_⟩
    · constructor
      · intro hEq
        exact absurd hEq (by simp)
      · rintro (h | h)
        · exact absurd h h1
        · exact absurd h h2
    · constructor
      · intro hEq
        exact absurd hEq (by simp)
      · intro h
        exact absurd h h3

/-- A flat 100-close candle with above-average volume. -/
def stdCandle : Candle :=
  { timestamp := 0, high := 100.5, low := 99.5, close := 100, volume := 20,
    rsi := some 60, emaShort := none, emaLong := none, atr := none }

/-- The final candle: a small up-tick on very thin volume. -/
def lastSigCandle : Candle :=
  { timestamp := 0, high := 100.6, low := 99.6, close := 100.1, volume := 1,
    rsi := some 65, emaShort := none, emaLong := none, atr := none }

def exSignalCandles : List Candle :=
  (List.range 50).map fun i => if i = 49 then lastSigCandle else stdCandle

def exSignalState : BotState :=
  { balance := 1000, holdings := [], averageEntryPrices := [],
    activePositions := [], trades := [], totalPortfolioValue := 1000,
    activeSymbol := "BTC-USDC" }

theorem exSignal_length : exSignalCandles.length = 50 := by
  simp [exSignalCandles]

theorem exSignal_last : lastCandle exSignalCandles = lastSigCandle := by
  norm_num [lastCandle, exSignalCandles, List.range_succ]

set_option maxHeartbeats 4000000 in
theorem exSignal_atr : signalAtr exSignalCandles = 1 := by
  norm_num [signalAtr, calculateAtr, trueRanges, averageQ, exSignalCandles,
    stdCandle, lastSigCandle, List.range_succ, max_def, abs_of_nonneg]
  simp

theorem exSignal_regime :
    signalRegime DEFAULT_STRATEGY_PARAMETERS exSignalCandles
      = MarketRegime.RANGING := by
  norm_num [signalRegime, exSignal_last, exSignal_atr, detectMarketRegime,
    jsOrQ, lastSigCandle, DEFAULT_STRATEGY_PARAMETERS, max_def]

theorem exSignal_effMin :
    effectiveMinScore DEFAULT_STRATEGY_PARAMETERS exSignalState 0 = 3/5 := by
  norm_num [effectiveMinScore, inactivityMs, getLatestTradeTimestamp,
    inactivityRelaxRatio, MAX_MIN_SCORE_RELAX, exSignalState,
    DEFAULT_STRATEGY_PARAMETERS, clamp, max_def, min_def]

theorem exSignal_buffer : rangingEntryBuffer exSignalState 0 = 1/100 := by
  norm_num [rangingEntryBuffer, inactivityMs, getLatestTradeTimestamp,
    exSignalState]

theorem exSignal_getElem48 (h : 48 < exSignalCandles.length) :
    exSignalCandles[48] = stdCandle := by
  rw [List.getElem_eq_iff]
  norm_num [exSignalCandles, List.range_succ]

set_option maxHeartbeats 1000000 in
theorem exSignal_avgVolume :
    averageQ (List.drop 30 (exSignalCandles.map fun c => c.volume)) = 381/20 := by
  norm_num [exSignalCandles, averageQ, List.range_succ, stdCandle, lastSigCandle]
  simp

set_option maxHeartbeats 4000000 in
theorem exSignal_breakdown :
    signalBreakdown DEFAULT_STRATEGY_PARAMETERS exSignalCandles =
      { pullbackToEma := 1, rsiRecovery := 1, momentumConfirmation := 11/20,
        volumeConfirmation := 0, trendAlignment := 9/20, total := 629/1000 } := by
  norm_num [signalBreakdown, exSignal_regime, exSignal_last, scoreSetup,
    exSignal_length, exSignal_getElem48, exSignal_avgVolume, stdCandle,
    lastSigCandle, jsOrQ, jsNullish, clamp, max_def, min_def, abs_of_nonneg,
    show (MarketRegime.RANGING = MarketRegime.TRENDING_UP) = False by simp]

set_option maxHeartbeats 1000000 in
theorem exSignal_volumeRatio : signalVolumeRatio exSignalCandles = 20/381 := by
  norm_num [signalVolumeRatio, exSignal_last, exSignal_length,
    exSignal_avgVolume, lastSigCandle]

/-- C6 counterexample: a RANGING 50-candle history satisfying every condition
the claim states for a BUY — score above the relaxed threshold plus the
idle-period buffer `0.01`, RSI recovery `1 ≥ 0.55`, momentum confirmation
`0.55 ≥ 0.5` — yet the current volume ratio is `20/381 < 0.9`, so the code's
additional `volumeRatio ≥ 0.9` conjunct fails and the derived action is HOLD,
not BUY. -/
theorem deriveSignal_buy_claim_cex :
    50 ≤ exSignalCandles.length ∧
    signalRegime DEFAULT_STRATEGY_PARAMETERS exSignalCandles
      = MarketRegime.RANGING ∧
    effectiveMinScore DEFAULT_STRATEGY_PARAMETERS exSignalState 0 +
        rangingEntryBuffer exSignalState 0 ≤
      (signalBreakdown DEFAULT_STRATEGY_PARAMETERS exSignalCandles).total ∧
    (55/100 : ℚ) ≤
      (signalBreakdown DEFAULT_STRATEGY_PARAMETERS exSignalCandles).rsiRecovery ∧
    (1/2 : ℚ) ≤
      (signalBreakdown DEFAULT_STRATEGY_PARAMETERS
        exSignalCandles).momentumConfirmation ∧
    signalVolumeRatio exSignalCandles < 9/10 ∧
    deriveSignalAction DEFAULT_STRATEGY_PARAMETERS exSignalState exSignalCandles 0
      = ActionType.HOLD := by
  refine ⟨by rw [exSignal_length], exSignal_regime, ?_, ?_, ?_, ?_, ?_⟩
  · rw [exSignal_effMin, exSignal_buffer, exSignal_breakdown]
    norm_num
  · rw [exSignal_breakdown]
    norm_num
  · rw [exSignal_breakdown]
    norm_num
  · rw [exSignal_volumeRatio]
    norm_num
  · unfold deriveSignalAction
    rw [if_neg (by rw [exSignal_length]; norm_num)]
    split_ifs with h1 h2 h3
    · exact absurd h1.1 (by rw [exSignal_regime]; simp)
    · exact absurd h2.2.2.2.2 (by rw [exSignal_volumeRatio]; norm_num)
    · rcases h3.1 with h | h <;> (rw [exSignal_regime] at h; simp at h)
    · rfl

theorem deriveSignal_action_iff_witness :
    (deriveSignalAction DEFAULT_STRATEGY_PARAMETERS exSignalState
        exSignalCandles 0 = ActionType.BUY ↔
      ((signalRegime DEFAULT_STRATEGY_PARAMETERS exSignalCandles
          = MarketRegime.TRENDING_UP ∧
        effectiveMinScore DEFAULT_STRATEGY_PARAMETERS exSignalState 0 ≤
          (signalBreakdown DEFAULT_STRATEGY_PARAMETERS exSignalCandles).total) ∨
       (signalRegime DEFAULT_STRATEGY_PARAMETERS exSignalCandles
          = MarketRegime.RANGING ∧
        effectiveMinScore DEFAULT_STRATEGY_PARAMETERS exSignalState 0 +
            rangingEntryBuffer exSignalState 0 ≤
          (signalBreakdown DEFAULT_STRATEGY_PARAMETERS exSignalCandles).total ∧
        (55/100 : ℚ) ≤
          (signalBreakdown DEFAULT_STRATEGY_PARAMETERS
            exSignalCandles).rsiRecovery ∧
        (1/2 : ℚ) ≤
          (signalBreakdown DEFAULT_STRATEGY_PARAMETERS
            exSignalCandles).momentumConfirmation ∧
        (9/10 : ℚ) ≤ signalVolumeRatio exSignalCandles))) ∧
    (deriveSignalAction DEFAULT_STRATEGY_PARAMETERS exSignalState
        exSignalCandles 0 = ActionType.SELL ↔
      ((signalRegime DEFAULT_STRATEGY_PARAMETERS exSignalCandles
          = MarketRegime.TRENDING_DOWN ∨
        signalRegime DEFAULT_STRATEGY_PARAMETERS exSignalCandles
          = MarketRegime.HIGH_VOLATILITY) ∧
       0 < jsGet exSignalState.holdings exSignalState.activeSymbol)) :=
  deriveSignal_action_iff DEFAULT_STRATEGY_PARAMETERS exSignalState
    exSignalCandles 0 (by simp [exSignalCandles])
